import Mathlib

/-!
Verification development for the n2yo-ts satellite-tracking client
(request / caching / validation pipeline).

The TypeScript sources are shallowly embedded:
* the error classes of `src/errors.ts` become the inductive `JSError`;
* the HTTP response classification of `N2YOClient.makeActualRequest`
  (`src/client.ts`) and of `makeRequest` (`src/http.ts`) become pure
  functions from a modelled `HttpErrorResponse` to `JSError`;
* the cache store (`src/cache.ts` class `Cache` and the inline cache of
  `src/client.ts`) becomes explicit state passing over an association
  list that models a JavaScript `Map` (insertion order preserved,
  `set` on an existing key keeps its position);
* the rate limiter and the admission logic of `N2YOClient.makeRequest`
  become a step function on an explicit state;
* the Zod schemas of `src/schemas.ts` become predicates over a model
  `JSNum` of JavaScript numbers (NaN and the infinities are explicit);
* `Cache.getCacheKey` with its WHATWG `URL` parse is modelled at the
  character-list level for the plain inputs the client produces.
-/

namespace N2YO

/-! ## String helpers (JavaScript `String.prototype` operations) -/

/-- Model of JavaScript `haystack.includes(needle)` on character lists:
true when `pat` occurs as a contiguous substring of `s`. -/
def hasSubstr (s pat : List Char) : Bool :=
  match s with
  | [] => pat.isEmpty
  | _ :: cs => pat.isPrefixOf s || hasSubstr cs pat

/-- Characters of `s` strictly before the first occurrence of the
pattern `pat`; all of `s` when `pat` does not occur.  This models the
first element of JavaScript `s.split(pat)`. -/
def takeUntilSub (pat : List Char) : List Char → List Char
  | [] => []
  | c :: cs => if pat.isPrefixOf (c :: cs) then [] else c :: takeUntilSub pat cs

/-- Model of the JavaScript expression `a || b` for strings: the empty
string is falsy, and an absent (`undefined`/`null`) field is falsy. -/
def jsOr (a : Option String) (b : String) : String :=
  match a with
  | some s => if s = "" then b else s
  | none => b

/-- Model of JavaScript `s.toUpperCase()` (the relevant inputs are
ASCII). -/
def jsToUpper (s : String) : String :=
  ⟨s.data.map Char.toUpper⟩

/-! ## Error taxonomy (`src/errors.ts`)

`N2YOError` is the base class; `RateLimitError` and
`InvalidParameterError` extend it.  `RateLimitError`'s constructor
takes no argument and always sets the message `API rate limit
exceeded`.  `InvalidParameterError(param, value, message)` sets the
message `Invalid parameter param: value. message`.  Errors that are not
`instanceof N2YOError` (e.g. a JSON `SyntaxError` or a network
`TypeError` from `fetch`) are modelled by the `other` constructor. -/

inductive JSError where
  | n2yo (message : String)
  | rateLimit
  | invalidParameter (param : String) (value : String) (message : String)
  | other (message : String)
deriving Repr, DecidableEq

/-- Model of `e instanceof N2YOError`: the two subclasses are also
instances of the base class. -/
def JSError.isN2YOError : JSError → Bool
  | .n2yo _ => true
  | .rateLimit => true
  | .invalidParameter _ _ _ => true
  | .other _ => false

/-- Message carried by the error object (`e.message`). -/
def JSError.message : JSError → String
  | .n2yo m => m
  | .rateLimit => "API rate limit exceeded"
  | .invalidParameter p v m => "Invalid parameter " ++ p ++ ": " ++ v ++ ". " ++ m
  | .other m => m

/-! ## Non-success HTTP responses and their classification (C1)

A non-2xx response carries a status code, the status line text, and a
body.  `errorBody` is the result of `await response.json()` on the
error path: `none` models a body that fails to parse as JSON, and
`some b` a parsed object whose optional `error` field is
`b.error` (`src/types.ts` interface `N2YOErrorResponse`). -/

structure ErrorBody where
  error : Option String
deriving Repr, DecidableEq

structure HttpErrorResponse where
  status : Nat
  statusText : String
  errorBody : Option ErrorBody
deriving Repr, DecidableEq

/-- Model of `await response.json()` on the error path: a parse failure
is a thrown `SyntaxError`, which is not an `N2YOError`. -/
def jsonErrorBody (r : HttpErrorResponse) : Except JSError ErrorBody :=
  match r.errorBody with
  | some b => .ok b
  | none => .error (.other "Unexpected token in JSON")

/-- Model of `try body catch handler` over the `Except` embedding. -/
def tryCatch {α : Type} (body : Except JSError α)
    (handler : JSError → Except JSError α) : Except JSError α :=
  match body with
  | .ok a => .ok a
  | .error e => handler e

/-- Error produced by the `!response.ok` branch of
`N2YOClient.makeActualRequest` (`src/client.ts`).  The source is

  if status is 429, throw RateLimitError;
  try: errorData := await response.json();
       throw N2YOError of ("API request failed: " ++ (errorData.error or statusText))
  catch: throw N2YOError of ("API request failed: " ++ statusText)

Note that the `N2YOError` thrown inside the `try` block is itself
intercepted by the unconditional `catch`, which rethrows using only the
status text; the body, the inner `match` on `tryCatch` extracts the
error that the branch finally throws (the branch never returns
normally, hence the result type `Empty` inside). -/
def makeActualRequestErrorOf (r : HttpErrorResponse) : JSError :=
  if r.status = 429 then
    JSError.rateLimit
  else
    match tryCatch (α := Empty)
      (do
        let errorData ← jsonErrorBody r
        Except.error (JSError.n2yo
          ("API request failed: " ++ jsOr errorData.error r.statusText)))
      (fun _ =>
        Except.error (JSError.n2yo ("API request failed: " ++ r.statusText))) with
    | .error e => e
    | .ok v => v.elim

/-- Error produced by the `!response.ok` branch of `makeRequest`
(`src/http.ts`).  That variant keeps a mutable `errorMessage`
initialised to `response.statusText` and overwritten with
`errorData.error || errorMessage` before the inner throw, so the
unconditional `catch` rethrows with the body's message whenever the
body parsed.  The mutation is modelled by the `let` binding. -/
def httpMakeRequestErrorOf (r : HttpErrorResponse) : JSError :=
  if r.status = 429 then
    JSError.rateLimit
  else
    let errorMessage :=
      match jsonErrorBody r with
      | .ok errorData => jsOr errorData.error r.statusText
      | .error _ => r.statusText
    JSError.n2yo ("API request failed: " ++ errorMessage)

/-- Concrete 403 response with a structured error body, as in the
repository's own test `should handle API errors properly`
(`tests/client.test.ts`). -/
def forbiddenResponse : HttpErrorResponse :=
  { status := 403
    statusText := "Forbidden"
    errorBody := some { error := some "Invalid API Key!" } }

/-- String-level wrapper for `s.includes(pat)`. -/
def strIncludes (s pat : String) : Bool :=
  hasSubstr s.data pat.data

/-! ## Catch handlers of the facade operations (C10)

Each of `getPositions`, `getVisualPasses`, `getRadioPasses` and
`getAbove` (`src/client.ts`) wraps its `makeRequest` call in a
`try`/`catch` whose handler inspects the thrown error: when it is an
`N2YOError` whose message contains the substring `got null`, the
operation resolves with an empty payload list and a synthesized info
object; otherwise the error is rethrown unchanged.  The payload item
type is a type parameter since the handlers never build items.  The
synthesized info objects are transcribed literally from the object
literals in each handler. -/

structure PositionsSynthInfo where
  satcount : ℚ
  transactionscount : ℚ
  satid : ℚ
  satname : String
deriving Repr, DecidableEq

structure PassesSynthInfo where
  passescount : ℚ
  satid : ℚ
  satname : String
  transactionscount : ℚ
deriving Repr, DecidableEq

structure AboveSynthInfo where
  category : String
  transactionscount : ℚ
  satcount : ℚ
deriving Repr, DecidableEq

/-- Catch handler of `getPositions`. -/
def getPositionsCatch {π : Type} (e : JSError) :
    Except JSError (PositionsSynthInfo × List π) :=
  if e.isN2YOError && strIncludes e.message "got null" then
    .ok ({ satcount := 0, transactionscount := 0, satid := 0, satname := "" }, [])
  else
    .error e

/-- Catch handler of `getVisualPasses`; `id` is the method's NORAD
catalog number argument, copied into the synthesized info. -/
def getVisualPassesCatch {π : Type} (id : ℚ) (e : JSError) :
    Except JSError (PassesSynthInfo × List π) :=
  if e.isN2YOError && strIncludes e.message "got null" then
    .ok ({ passescount := 0, satid := id, satname := "", transactionscount := 0 }, [])
  else
    .error e

/-- Catch handler of `getRadioPasses` (textually identical to the one
in `getVisualPasses`). -/
def getRadioPassesCatch {π : Type} (id : ℚ) (e : JSError) :
    Except JSError (PassesSynthInfo × List π) :=
  if e.isN2YOError && strIncludes e.message "got null" then
    .ok ({ passescount := 0, satid := id, satname := "", transactionscount := 0 }, [])
  else
    .error e

/-- Catch handler of `getAbove`; `categoryName` is the result of
`this.getCategoryName(categoryId)` (the local category table lookup,
`undefined` when the id is unknown), and the source applies
`|| 'Unknown'` to it. -/
def getAboveCatch {π : Type} (categoryName : Option String) (e : JSError) :
    Except JSError (AboveSynthInfo × List π) :=
  if e.isN2YOError && strIncludes e.message "got null" then
    .ok ({ category := jsOr categoryName "Unknown", transactionscount := 0, satcount := 0 }, [])
  else
    .error e

/-! ## JavaScript Map model

The caches of `src/cache.ts` and `src/client.ts` are JavaScript `Map`s.
A `Map` iterates in insertion order, its keys are unique, `set` on an
existing key replaces the value in place (keeping the key's position)
and on a new key appends, and `delete` removes the key's entry. -/

abbrev JSMap (β : Type) := List (String × β)

def mapGet {β : Type} : JSMap β → String → Option β
  | [], _ => none
  | p :: rest, k => if p.1 == k then some p.2 else mapGet rest k

def mapSet {β : Type} : JSMap β → String → β → JSMap β
  | [], k, v => [(k, v)]
  | p :: rest, k, v => if p.1 == k then (k, v) :: rest else p :: mapSet rest k v

def mapDelete {β : Type} : JSMap β → String → JSMap β
  | [], _ => []
  | p :: rest, k => if p.1 == k then rest else p :: mapDelete rest k

/-! ## Cache store (`src/cache.ts` class `Cache`, and the inline cache
of `src/client.ts`)

`CacheEntry` is the stored record (`src/types.ts`): payload, storing
time (`Date.now()`), and TTL in milliseconds.  Times and durations are
integers.  The `Cache` class caps the effective TTL by the configured
`ttlMs` (`Math.min`), while the inline `setCachedResponse` of
`src/client.ts` uses the requested TTL uncapped; both evict the single
first-inserted entry when the entry count has reached `maxEntries`. -/

structure CacheEntry (α : Type) where
  data : α
  timestamp : Int
  ttl : Int
deriving Repr, DecidableEq

structure CacheConfig where
  enabled : Bool
  ttlMs : Int
  maxEntries : Nat
deriving Repr, DecidableEq

/-- Model of `Cache.evictEntries` (`src/cache.ts`): delete the first
key of the map, if any. -/
def Cache.evictEntries {α : Type} (m : JSMap (CacheEntry α)) : JSMap (CacheEntry α) :=
  match m with
  | [] => m
  | _ :: rest => rest

/-- Model of `Cache.get` (`src/cache.ts`): a disabled cache always
misses; an entry older than its TTL is treated as absent and deleted
lazily.  Returns the lookup result and the updated map. -/
def Cache.get {α : Type} (cfg : CacheConfig) (m : JSMap (CacheEntry α))
    (now : Int) (cacheKey : String) : Option α × JSMap (CacheEntry α) :=
  if !cfg.enabled then (none, m)
  else
    match mapGet m cacheKey with
    | none => (none, m)
    | some entry =>
      if now - entry.timestamp > entry.ttl then (none, mapDelete m cacheKey)
      else (some entry.data, m)

/-- Model of `Cache.set` (`src/cache.ts`): the effective TTL is
`Math.min(customTtl ?? ttlMs, ttlMs)`; when the entry count has reached
`maxEntries` the first-inserted entry is evicted before insertion. -/
def Cache.set {α : Type} (cfg : CacheConfig) (m : JSMap (CacheEntry α))
    (now : Int) (cacheKey : String) (data : α) (customTtl : Option Int) :
    JSMap (CacheEntry α) :=
  if !cfg.enabled then m
  else
    let ttl := min (customTtl.getD cfg.ttlMs) cfg.ttlMs
    let m1 := if cfg.maxEntries ≤ m.length then Cache.evictEntries m else m
    mapSet m1 cacheKey { data := data, timestamp := now, ttl := ttl }

/-- Model of `N2YOClient.getCacheKey` (`src/client.ts`):
`endpoint.split('&apiKey=')[0] || endpoint` — the part of the endpoint
before the first occurrence of `&apiKey=`, or the whole endpoint when
that part is empty (the empty string is falsy). -/
def clientGetCacheKeyList (endpoint : List Char) : List Char :=
  let first := takeUntilSub "&apiKey=".data endpoint
  if first.isEmpty then endpoint else first

def clientGetCacheKey (endpoint : String) : String :=
  ⟨clientGetCacheKeyList endpoint.data⟩

/-- Model of `N2YOClient.getCachedResponse` (`src/client.ts`); same
logic as `Cache.get`. -/
def getCachedResponse {α : Type} (cfg : CacheConfig) (m : JSMap (CacheEntry α))
    (now : Int) (cacheKey : String) : Option α × JSMap (CacheEntry α) :=
  if !cfg.enabled then (none, m)
  else
    match mapGet m cacheKey with
    | none => (none, m)
    | some entry =>
      if now - entry.timestamp > entry.ttl then (none, mapDelete m cacheKey)
      else (some entry.data, m)

/-- Model of `N2YOClient.setCachedResponse` (`src/client.ts`): same
eviction as `Cache.set`, but the effective TTL is `customTtl ?? ttlMs`
with no capping. -/
def setCachedResponse {α : Type} (cfg : CacheConfig) (m : JSMap (CacheEntry α))
    (now : Int) (cacheKey : String) (data : α) (customTtl : Option Int) :
    JSMap (CacheEntry α) :=
  if !cfg.enabled then m
  else
    let m1 := if cfg.maxEntries ≤ m.length then Cache.evictEntries m else m
    mapSet m1 cacheKey { data := data, timestamp := now, ttl := customTtl.getD cfg.ttlMs }

/-! ## Rate limiter (`src/client.ts`)

`RateLimitState` holds the recorded request timestamps, the queue of
deferred requests (modelled by its length; the drain loop is out of
scope of the claims), and the drain-in-progress flag. -/

structure RateLimitConfig where
  enabled : Bool
  requestsPerHour : Nat
  queueRequests : Bool
deriving Repr, DecidableEq

structure RateLimitState where
  requests : List Int
  processing : Bool
  queueLength : Nat
deriving Repr, DecidableEq

/-- Model of `N2YOClient.isWithinRateLimit`: prune timestamps at or
before `now` minus one hour, then compare the count with the hourly
ceiling.  Returns the admission flag and the pruned state. -/
def isWithinRateLimit (cfg : RateLimitConfig) (st : RateLimitState) (now : Int) :
    Bool × RateLimitState :=
  if !cfg.enabled then (true, st)
  else
    let oneHourAgo := now - 60 * 60 * 1000
    let requests1 := st.requests.filter (fun t => decide (t > oneHourAgo))
    (decide (requests1.length < cfg.requestsPerHour), { st with requests := requests1 })

/-- Model of `N2YOClient.recordRequest`: append `Date.now()` when rate
limiting is enabled. -/
def recordRequest (cfg : RateLimitConfig) (st : RateLimitState) (now : Int) :
    RateLimitState :=
  if cfg.enabled then { st with requests := st.requests ++ [now] } else st

/-! ## Request pipeline of the facade (`src/client.ts`) -/

structure ClientState (α : Type) where
  cache : JSMap (CacheEntry α)
  rate : RateLimitState
deriving Repr, DecidableEq

/-- Outcome of the admission phase of `N2YOClient.makeRequest`: a cache
hit short-circuits; a saturated window rejects (throwing
`RateLimitError`) when queueing is disabled, or queues; otherwise the
call proceeds to `makeActualRequest` with the derived cache key. -/
inductive RequestStep (α : Type) where
  | cacheHit (data : α)
  | rejectedRateLimited
  | queued
  | network (cacheKey : String)
deriving Repr, DecidableEq

/-- Model of `N2YOClient.makeRequest` (`src/client.ts`) up to the
dispatch of the network call: derive the cache key, try the cache
(response payloads are objects, hence truthy, so `if (cached)` is a
`some` test), then check the rate limit; on saturation either throw
`RateLimitError` (queueing disabled) or enqueue. -/
def makeRequestAdmission {α : Type} (ccfg : CacheConfig) (rcfg : RateLimitConfig)
    (st : ClientState α) (now : Int) (endpoint : String) :
    RequestStep α × ClientState α :=
  let cacheKey := clientGetCacheKey endpoint
  let got := getCachedResponse ccfg st.cache now cacheKey
  match got.1 with
  | some data => (.cacheHit data, { st with cache := got.2 })
  | none =>
    let adm := isWithinRateLimit rcfg st.rate now
    let st1 : ClientState α := { cache := got.2, rate := adm.2 }
    if !adm.1 then
      if !rcfg.queueRequests then (.rejectedRateLimited, st1)
      else (.queued, { st1 with rate := { adm.2 with queueLength := adm.2.queueLength + 1 } })
    else (.network cacheKey, st1)

/-- Result of the `fetch` call inside `makeActualRequest`: a transport
failure (the promise rejects, e.g. a network `TypeError`), a non-2xx
response, or a 2xx response whose body parses (`some`) or fails to
parse (`none`). -/
inductive FetchOutcome (α : Type) where
  | transportError (message : String)
  | errorResponse (r : HttpErrorResponse)
  | success (body : Option α)

/-- Model of `N2YOClient.makeActualRequest` (`src/client.ts`): record
the request for rate limiting before the fetch; classify a non-success
response via `makeActualRequestErrorOf`; on success write the payload
to the cache and return it.  On any failure the cache is untouched. -/
def makeActualRequest {α : Type} (ccfg : CacheConfig) (rcfg : RateLimitConfig)
    (st : ClientState α) (now : Int) (cacheKey : String) (customTtl : Option Int)
    (outcome : FetchOutcome α) : Except JSError α × ClientState α :=
  let st1 : ClientState α := { st with rate := recordRequest rcfg st.rate now }
  match outcome with
  | .transportError msg => (.error (.other msg), st1)
  | .errorResponse r => (.error (makeActualRequestErrorOf r), st1)
  | .success none => (.error (.other "Unexpected token in JSON"), st1)
  | .success (some data) =>
      (.ok data,
        { st1 with cache := setCachedResponse ccfg st1.cache now cacheKey data customTtl })

/-! ## JavaScript numbers and the Zod schemas (`src/schemas.ts`)

`JSNum` models an IEEE double as seen by the validation layer: NaN,
the two infinities, or a finite value (an exact rational).  Zod's
`z.number()` rejects NaN at the type level; `.int()` uses
`Number.isInteger`; `.min`/`.max`/`.positive` compare with the usual
IEEE ordering (total on non-NaN values).  Each schema is transcribed
as a function returning the message of the first failing check in
chain order, and an object schema checks its fields in declaration
order, `mapZodErrorToInvalidParameterError` throwing for the first
field with an issue. -/

inductive JSNum where
  | nan
  | posInf
  | negInf
  | num (q : ℚ)
deriving Repr, DecidableEq

/-- Type-level check of `z.number()`: NaN is rejected as an invalid
type, the infinities are accepted. -/
def JSNum.isZodNumber : JSNum → Bool
  | .nan => false
  | _ => true

/-- Model of `Number.isFinite`. -/
def JSNum.isFinite : JSNum → Bool
  | .num _ => true
  | _ => false

/-- Model of `Number.isInteger`. -/
def JSNum.isInteger : JSNum → Bool
  | .num q => q.den == 1
  | _ => false

/-- IEEE `<` on the model (comparisons with NaN are always false). -/
def JSNum.ltb : JSNum → JSNum → Bool
  | .nan, _ => false
  | _, .nan => false
  | .negInf, .negInf => false
  | .negInf, _ => true
  | _, .negInf => false
  | .posInf, _ => false
  | _, .posInf => true
  | .num a, .num b => decide (a < b)

/-- IEEE `≤` on the model (comparisons with NaN are always false). -/
def JSNum.leb (a b : JSNum) : Bool :=
  match a, b with
  | .nan, _ => false
  | _, .nan => false
  | _, _ => !JSNum.ltb b a

/-- IEEE `>` on the model. -/
def JSNum.gtb (a b : JSNum) : Bool :=
  JSNum.ltb b a

/-- Issues of `NoradIdSchema`: integer, positive. -/
def noradIdIssue (n : JSNum) : Option String :=
  if !n.isZodNumber then some "Expected number, received nan"
  else if !n.isInteger then some "NORAD ID must be an integer"
  else if n.leb (.num 0) then some "NORAD ID must be positive"
  else none

/-- Issues of `LatitudeSchema`: min −90, max 90. -/
def latitudeIssue (n : JSNum) : Option String :=
  if !n.isZodNumber then some "Expected number, received nan"
  else if n.ltb (.num (-90)) then some "Latitude must be between -90 and 90 degrees"
  else if n.gtb (.num 90) then some "Latitude must be between -90 and 90 degrees"
  else none

/-- Issues of `LongitudeSchema`: min −180, max 180. -/
def longitudeIssue (n : JSNum) : Option String :=
  if !n.isZodNumber then some "Expected number, received nan"
  else if n.ltb (.num (-180)) then some "Longitude must be between -180 and 180 degrees"
  else if n.gtb (.num 180) then some "Longitude must be between -180 and 180 degrees"
  else none

/-- Issues of `AltitudeSchema`: min −1000, max 10000. -/
def altitudeIssue (n : JSNum) : Option String :=
  if !n.isZodNumber then some "Expected number, received nan"
  else if n.ltb (.num (-1000)) then some "Altitude must be between -1000 and 10000 meters"
  else if n.gtb (.num 10000) then some "Altitude must be between -1000 and 10000 meters"
  else none

/-- Issues of the `seconds` field of `GetPositionsParamsSchema`:
integer, min 1, max 300. -/
def secondsIssue (n : JSNum) : Option String :=
  if !n.isZodNumber then some "Expected number, received nan"
  else if !n.isInteger then some "Seconds must be an integer"
  else if n.ltb (.num 1) then some "Seconds must be between 1 and 300"
  else if n.gtb (.num 300) then some "Seconds must be between 1 and 300"
  else none

/-- Issues of the `days` field of `GetVisualPassesParamsSchema` and
`GetRadioPassesParamsSchema`: integer, min 1, max 10. -/
def daysIssue (n : JSNum) : Option String :=
  if !n.isZodNumber then some "Expected number, received nan"
  else if !n.isInteger then some "Days must be an integer"
  else if n.ltb (.num 1) then some "Days must be between 1 and 10"
  else if n.gtb (.num 10) then some "Days must be between 1 and 10"
  else none

/-- Issues of the `minVisibility` field: positive. -/
def minVisibilityIssue (n : JSNum) : Option String :=
  if !n.isZodNumber then some "Expected number, received nan"
  else if n.leb (.num 0) then some "Minimum visibility must be positive"
  else none

/-- First field with an issue, in field declaration order, paired with
its message — the issue that `mapZodErrorToInvalidParameterError`
reports. -/
def firstFieldIssue : List (String × Option String) → Option (String × String)
  | [] => none
  | (name, some msg) :: _ => some (name, msg)
  | (_, none) :: rest => firstFieldIssue rest

/-- Model of `mapZodErrorToInvalidParameterError` (`src/schemas.ts`):
throws `InvalidParameterError(path, value, message)`.  The `value` it
computes reduces the issue path over a fresh empty object, which always
yields `undefined`, so the reported value is the literal `unknown`. -/
def zodThrow (issue : String × String) : JSError :=
  JSError.invalidParameter issue.1 "unknown" issue.2

/-- Model of `GetPositionsParamsSchema.parse`: first issue over the
fields in declaration order. -/
def validateGetPositions (id observerLat observerLng observerAlt seconds : JSNum) :
    Option (String × String) :=
  firstFieldIssue
    [("id", noradIdIssue id),
     ("observerLat", latitudeIssue observerLat),
     ("observerLng", longitudeIssue observerLng),
     ("observerAlt", altitudeIssue observerAlt),
     ("seconds", secondsIssue seconds)]

/-- Model of `GetVisualPassesParamsSchema.parse`. -/
def validateGetVisualPasses
    (id observerLat observerLng observerAlt days minVisibility : JSNum) :
    Option (String × String) :=
  firstFieldIssue
    [("id", noradIdIssue id),
     ("observerLat", latitudeIssue observerLat),
     ("observerLng", longitudeIssue observerLng),
     ("observerAlt", altitudeIssue observerAlt),
     ("days", daysIssue days),
     ("minVisibility", minVisibilityIssue minVisibility)]

/-- Model of `N2YOClient.getPositions` (`src/client.ts`) up to the
dispatch of the network call: validate, then run the admission phase
with the interpolated endpoint.  `render` models JavaScript
number-to-string conversion in the template literal.  A validation
failure throws before any cache, rate-limit or network activity, so
the state is returned unchanged. -/
def getPositionsStep {α : Type} (render : JSNum → String) (ccfg : CacheConfig)
    (rcfg : RateLimitConfig) (st : ClientState α) (now : Int)
    (id observerLat observerLng observerAlt seconds : JSNum) :
    Except JSError (RequestStep α) × ClientState α :=
  match validateGetPositions id observerLat observerLng observerAlt seconds with
  | some issue => (.error (zodThrow issue), st)
  | none =>
    let r := makeRequestAdmission ccfg rcfg st now
      ("positions/" ++ render id ++ "/" ++ render observerLat ++ "/"
        ++ render observerLng ++ "/" ++ render observerAlt ++ "/" ++ render seconds)
    (.ok r.1, r.2)

/-- Model of `N2YOClient.getVisualPasses` (`src/client.ts`) up to the
dispatch of the network call. -/
def getVisualPassesStep {α : Type} (render : JSNum → String) (ccfg : CacheConfig)
    (rcfg : RateLimitConfig) (st : ClientState α) (now : Int)
    (id observerLat observerLng observerAlt days minVisibility : JSNum) :
    Except JSError (RequestStep α) × ClientState α :=
  match validateGetVisualPasses id observerLat observerLng observerAlt days minVisibility with
  | some issue => (.error (zodThrow issue), st)
  | none =>
    let r := makeRequestAdmission ccfg rcfg st now
      ("visualpasses/" ++ render id ++ "/" ++ render observerLat ++ "/"
        ++ render observerLng ++ "/" ++ render observerAlt ++ "/" ++ render days
        ++ "/" ++ render minVisibility)
    (.ok r.1, r.2)

/-! ## Time-zone conversion (`N2YOClient.utcToLocal`, `src/client.ts`)

The external `Intl` collaborator is modelled by `TzEnv`: the list of
supported IANA zone identifiers (`Intl.supportedValuesOf('timeZone')`),
the `Intl.DateTimeFormat`-based formatting pipeline of the method
(`none` models a throw from the formatter), and the UTC rendering
`date.toISOString().replace('T', ' ').slice(0, 19)`.  `utcToLocal`
returns the result together with the list of messages emitted through
the `debugLog` diagnostic channel. -/

structure TzEnv where
  supportedZones : List String
  formatZoned : String → ℚ → Option String
  isoFormat : ℚ → String

/-- Issues of the `utcTimestamp` field of `UtcToLocalParamsSchema`:
number (rejects NaN), finite, not NaN. -/
def utcTimestampIssue (n : JSNum) : Option String :=
  if !n.isZodNumber then some "Expected number, received nan"
  else if !n.isFinite then some "Timestamp must be a valid number"
  else none

/-- Issues of the `timeZone` field of `UtcToLocalParamsSchema`:
non-empty, and upper-cased equal to `UTC` or a recognized zone. -/
def timeZoneIssue (env : TzEnv) (tz : String) : Option String :=
  if tz.length < 1 then some "Time zone must not be empty"
  else if !(jsToUpper tz == "UTC" || env.supportedZones.contains tz) then
    some "Invalid IANA time zone"
  else none

/-- Model of `N2YOClient.utcToLocal` (`src/client.ts`): validate with
`UtcToLocalParamsSchema` (an unrecognized zone is a validation failure
thrown as `InvalidParameterError`); an upper-cased `UTC` request uses
the ISO rendering; otherwise format via `Intl.DateTimeFormat`, falling
back to the ISO rendering (with a debug notice) when the formatter
throws.  The non-finite case after a passed validation is unreachable.
-/
def utcToLocal (env : TzEnv) (debug : Bool) (utcTimestamp : JSNum) (timeZone : String) :
    Except JSError String × List String :=
  match firstFieldIssue
      [("utcTimestamp", utcTimestampIssue utcTimestamp),
       ("timeZone", timeZoneIssue env timeZone)] with
  | some issue => (.error (zodThrow issue), [])
  | none =>
    match utcTimestamp with
    | .num q =>
      if jsToUpper timeZone == "UTC" then
        (.ok (env.isoFormat q ++ " UTC"), [])
      else
        match env.formatZoned timeZone q with
        | some s => (.ok s, [])
        | none =>
          (.ok (env.isoFormat q ++ " UTC"),
            if debug then
              ["Failed to format time zone " ++ timeZone ++ ". Falling back to UTC."]
            else [])
    | _ => (.error (.other "unreachable: validation accepts only finite timestamps"), [])

/-- Concrete `Intl` environment for witnesses: one supported zone whose
formatter throws. -/
def tzEnvExample : TzEnv :=
  { supportedZones := ["America/New_York"]
    formatZoned := fun _ _ => none
    isoFormat := fun _ => "1970-01-01 00:00:00" }

/-! ## Cache key derivation of the `Cache` class (`src/cache.ts`)

`Cache.getCacheKey` parses the endpoint with the WHATWG `URL`
constructor — against the dummy base string `http://dummy.base`
concatenated with the endpoint, with no separating slash, when the
endpoint contains no `://` — then deletes the `apiKey` search
parameter, sorts the remaining parameters (`URLSearchParams.sort`, a
stable sort on names compared by code units), and returns
`url.pathname + url.search`.  The parse is modelled at the character
level for plain inputs: `http` scheme, no userinfo or port in the
authority, no `#` fragment, and no percent-encoding, `+` escapes or
dot-segment normalization — the theorems' hypotheses (`pathOk`,
`paramOk`) restrict endpoints to characters on which the WHATWG
algorithm is the identity.  The host — which absorbs everything before
the first `/` or `?`, including the endpoint's first path segment — is
dropped from the key, so its lowercasing is immaterial.  The
`try`/`catch` fallback of the source never triggers on these inputs
(the dummy-based URL is always well-formed), so it is not modelled. -/

/-- Everything after the first `://`. -/
def dropScheme : List Char → List Char
  | [] => []
  | ':' :: '/' :: '/' :: rest => rest
  | _ :: cs => dropScheme cs

/-- Authority split: the host is everything up to the first `/` or `?`.
-/
def splitHost : List Char → List Char × List Char
  | [] => ([], [])
  | c :: cs =>
    if c = '/' ∨ c = '?' then ([], c :: cs)
    else
      let p := splitHost cs
      (c :: p.1, p.2)

/-- Path and query of the part following the authority: an empty path
serializes as `/`, and the query is everything after the first `?`. -/
def pathAndQuery (l : List Char) : List Char × List Char :=
  if l.head? = some '?' then (['/'], l.tail)
  else if l.isEmpty then (['/'], [])
  else (l.takeWhile (fun c => c != '?'), (l.dropWhile (fun c => c != '?')).tail)

/-- Split on a separator character (`&` between parameters, `/` between
path segments). -/
def splitOnChar (sep : Char) : List Char → List (List Char)
  | [] => [[]]
  | c :: rest =>
    if c = sep then [] :: splitOnChar sep rest
    else
      match splitOnChar sep rest with
      | [] => [[c]]
      | piece :: more => (c :: piece) :: more

/-- `URLSearchParams` parse of one piece between `&`s: empty pieces are
skipped; the name is everything before the first `=`, the value
everything after it (empty when there is no `=`). -/
def parsePair (piece : List Char) : Option (String × String) :=
  if piece.isEmpty then none
  else some (⟨piece.takeWhile (fun c => c != '=')⟩,
             ⟨(piece.dropWhile (fun c => c != '=')).tail⟩)

/-- `URLSearchParams` parse of a query (without its leading `?`). -/
def parseQuery (q : List Char) : List (String × String) :=
  (splitOnChar '&' q).filterMap parsePair

/-- `URLSearchParams` serialization: `name=value` pairs joined by `&`.
-/
def renderQueryInner : List (String × String) → List Char
  | [] => []
  | [p] => p.1.data ++ '=' :: p.2.data
  | p :: q :: rest => p.1.data ++ '=' :: p.2.data ++ '&' :: renderQueryInner (q :: rest)

/-- `url.search`: empty for an empty parameter list, otherwise `?`
followed by the serialization. -/
def renderSearch (ps : List (String × String)) : List Char :=
  if ps.isEmpty then [] else '?' :: renderQueryInner ps

/-- Ordering used by `URLSearchParams.sort`: parameter names compared
by code units; the sort is stable for equal names. -/
def nameLe (a b : String × String) : Prop :=
  a.1.data ≤ b.1.data

instance : DecidableRel nameLe :=
  fun a b => inferInstanceAs (Decidable (a.1.data ≤ b.1.data))

instance : IsTotal (String × String) nameLe :=
  ⟨fun a b => le_total a.1.data b.1.data⟩

instance : IsTrans (String × String) nameLe :=
  ⟨fun _ _ _ h h2 => le_trans h h2⟩

/-- Strict version of `nameLe`, used to identify two sorted
permutations with pairwise-distinct names. -/
def nameLt (a b : String × String) : Prop :=
  a.1.data < b.1.data

instance : IsAntisymm (String × String) nameLt :=
  ⟨fun _ _ h h2 => (lt_asymm h h2).elim⟩

/-- Model of `Cache.getCacheKey` (`src/cache.ts`) on character lists. -/
def Cache.getCacheKeyList (endpoint : List Char) : List Char :=
  let s := if hasSubstr endpoint "://".data then endpoint
           else "http://dummy.base".data ++ endpoint
  let hp := splitHost (dropScheme s)
  let pq := pathAndQuery hp.2
  let params := (parseQuery pq.2).filter (fun p => p.1 != "apiKey")
  pq.1 ++ renderSearch (List.insertionSort nameLe params)

/-- Model of `Cache.getCacheKey` (`src/cache.ts`). -/
def Cache.getCacheKey (endpoint : String) : String :=
  ⟨Cache.getCacheKeyList endpoint.data⟩

/-- Endpoint string with an explicit query, for the normalization
claims. -/
def renderEndpoint (path : String) (ps : List (String × String)) : String :=
  ⟨path.data ++ renderSearch ps⟩

/-- Endpoint the client interpolates for `getVisualPasses`
(`src/client.ts`). -/
def visualPassesEndpoint (id lat lng alt days minVisibility : String) : String :=
  "visualpasses/" ++ id ++ "/" ++ lat ++ "/" ++ lng ++ "/" ++ alt ++ "/" ++ days
    ++ "/" ++ minVisibility

/-- Endpoint the client interpolates for `getRadioPasses`
(`src/client.ts`). -/
def radioPassesEndpoint (id lat lng alt days minElevation : String) : String :=
  "radiopasses/" ++ id ++ "/" ++ lat ++ "/" ++ lng ++ "/" ++ alt ++ "/" ++ days
    ++ "/" ++ minElevation

/-- Characters on which the WHATWG parser and serializer are the
identity in path position, separators aside. -/
def pathCharOk (c : Char) : Bool :=
  c.isAlphanum || c == '-' || c == '.' || c == '_' || c == '/'

/-- Characters safe in parameter names and values (never escaped by
form-urlencoding, and not separators). -/
def paramCharOk (c : Char) : Bool :=
  c.isAlphanum || c == '-' || c == '.' || c == '_'

/-- A parameter with plain name and value. -/
def paramOk (p : String × String) : Prop :=
  (∀ c ∈ p.1.data, paramCharOk c = true) ∧ (∀ c ∈ p.2.data, paramCharOk c = true)

/-- A plain path: path-safe characters and no `.` or `..` segments
(which the URL parser would normalize away). -/
def pathOk (path : List Char) : Prop :=
  (∀ c ∈ path, pathCharOk c = true)
  ∧ ∀ s ∈ splitOnChar '/' path, s ≠ ['.'] ∧ s ≠ ['.', '.']

/-- Characters of the numbers the client interpolates into endpoint
paths: digits, a decimal point, a sign. -/
def numCharOk (c : Char) : Bool :=
  c.isDigit || c == '.' || c == '-'

/-- A plain numeric path parameter (not itself a dot-segment). -/
def numParamOk (s : String) : Prop :=
  (∀ c ∈ s.data, numCharOk c = true) ∧ s ≠ "." ∧ s ≠ ".."

/-- Pathname that the parse assigns to a plain endpoint: the part of
the path from its first `/` — everything before it is absorbed into
the dummy host — or `/` when the path has no slash. -/
def pathnameOf (path : List Char) : List Char :=
  match path.dropWhile (fun c => c != '/') with
  | [] => ['/']
  | l => l

instance (p : String × String) : Decidable (paramOk p) := by
  unfold paramOk
  infer_instance

instance (path : List Char) : Decidable (pathOk path) := by
  unfold pathOk
  infer_instance

instance (s : String) : Decidable (numParamOk s) := by
  unfold numParamOk
  infer_instance

/-- Cache configuration with capacity 2, for the eviction scenario. -/
def capTwoConfig : CacheConfig :=
  { enabled := true, ttlMs := 1000, maxEntries := 2 }

/-- Three distinct keys inserted into an initially empty capacity-2
store, all at time 0 with the default TTL. -/
def threeInserts : JSMap (CacheEntry ℕ) :=
  Cache.set capTwoConfig
    (Cache.set capTwoConfig
      (Cache.set capTwoConfig [] 0 "k1" 1 none) 0 "k2" 2 none) 0 "k3" 3 none

end N2YO

namespace N2YO

/-! ## Theorems -/

/-- C1 (code_bug): for an admitted request answered with HTTP 403 and a
structured error body carrying the message `Invalid API Key!`, the
executor of `src/client.ts` (`makeActualRequest`) rejects with an
`N2YOError` whose message is only the status line text `Forbidden` —
the `N2YOError` built from the body is thrown inside the `try` block
and swallowed by the unconditional `catch` — contradicting the claim
(and the repository's own test, and the `src/http.ts` variant, which
does carry the body's message).  Status 429 yields `RateLimitError`
in both variants, as claimed. -/
theorem makeActualRequest_drops_error_body_message :
    makeActualRequestErrorOf forbiddenResponse
        = JSError.n2yo "API request failed: Forbidden"
    ∧ strIncludes (makeActualRequestErrorOf forbiddenResponse).message
        "Invalid API Key!" = false
    ∧ httpMakeRequestErrorOf forbiddenResponse
        = JSError.n2yo "API request failed: Invalid API Key!"
    ∧ makeActualRequestErrorOf { forbiddenResponse with status := 429 }
        = JSError.rateLimit
    ∧ httpMakeRequestErrorOf { forbiddenResponse with status := 429 }
        = JSError.rateLimit :=
  ⟨rfl, by decide, rfl, rfl, rfl⟩

/-- C10 (counterexample): with the requested id 25544 and a `got null`
error, `getVisualPasses` resolves — but the synthesized info object is
not zeroed: its `satid` field is the requested id 25544, not 0. -/
theorem getVisualPassesCatch_info_not_zeroed :
    getVisualPassesCatch (π := Unit) 25544
        (JSError.n2yo "API request failed: Invalid satellite id: got null")
      = .ok ({ passescount := 0, satid := 25544, satname := "", transactionscount := 0 }, [])
    ∧ (25544 : ℚ) ≠ 0 :=
  ⟨rfl, by norm_num⟩

/-- C10 (amended): for every thrown `N2YOError` whose message contains
`got null`, the four operations resolve with an empty payload list and
a synthesized info object with zero counts and empty name — `satid`
being 0 for `getPositions`, the requested id for `getVisualPasses` and
`getRadioPasses`, and `category` the locally resolved category name
(or `Unknown`) for `getAbove`; every error failing that test is
rethrown unchanged. -/
theorem gotNull_catch_handlers {π : Type} (id : ℚ) (categoryName : Option String)
    (e eOther : JSError)
    (h : (e.isN2YOError && strIncludes e.message "got null") = true)
    (hOther : (eOther.isN2YOError && strIncludes eOther.message "got null") = false) :
    getPositionsCatch (π := π) e
        = .ok ({ satcount := 0, transactionscount := 0, satid := 0, satname := "" }, [])
    ∧ getVisualPassesCatch (π := π) id e
        = .ok ({ passescount := 0, satid := id, satname := "", transactionscount := 0 }, [])
    ∧ getRadioPassesCatch (π := π) id e
        = .ok ({ passescount := 0, satid := id, satname := "", transactionscount := 0 }, [])
    ∧ getAboveCatch (π := π) categoryName e
        = .ok ({ category := jsOr categoryName "Unknown", transactionscount := 0, satcount := 0 }, [])
    ∧ getPositionsCatch (π := π) eOther = .error eOther
    ∧ getVisualPassesCatch (π := π) id eOther = .error eOther
    ∧ getRadioPassesCatch (π := π) id eOther = .error eOther
    ∧ getAboveCatch (π := π) categoryName eOther = .error eOther := by
  unfold getPositionsCatch getVisualPassesCatch getRadioPassesCatch getAboveCatch
  simp [h, hOther]

/-- Witness for `gotNull_catch_handlers` at a concrete `got null` error
and a concrete unrelated error. -/
theorem gotNull_catch_handlers_witness :
    (((JSError.n2yo "API request failed: got null").isN2YOError
        && strIncludes (JSError.n2yo "API request failed: got null").message "got null") = true)
    ∧ (((JSError.other "got null").isN2YOError
        && strIncludes (JSError.other "got null").message "got null") = false)
    ∧ (getPositionsCatch (π := Unit) (JSError.n2yo "API request failed: got null")
        = .ok ({ satcount := 0, transactionscount := 0, satid := 0, satname := "" }, [])
      ∧ getVisualPassesCatch (π := Unit) 1 (JSError.n2yo "API request failed: got null")
        = .ok ({ passescount := 0, satid := 1, satname := "", transactionscount := 0 }, [])
      ∧ getRadioPassesCatch (π := Unit) 1 (JSError.n2yo "API request failed: got null")
        = .ok ({ passescount := 0, satid := 1, satname := "", transactionscount := 0 }, [])
      ∧ getAboveCatch (π := Unit) none (JSError.n2yo "API request failed: got null")
        = .ok ({ category := jsOr none "Unknown", transactionscount := 0, satcount := 0 }, [])
      ∧ getPositionsCatch (π := Unit) (JSError.other "got null") = .error (JSError.other "got null")
      ∧ getVisualPassesCatch (π := Unit) 1 (JSError.other "got null") = .error (JSError.other "got null")
      ∧ getRadioPassesCatch (π := Unit) 1 (JSError.other "got null") = .error (JSError.other "got null")
      ∧ getAboveCatch (π := Unit) none (JSError.other "got null") = .error (JSError.other "got null")) :=
  ⟨by decide, by decide,
    gotNull_catch_handlers 1 none _ _ (by decide) (by decide)⟩

/-- Helper: `takeWhile` over an append whose first part satisfies the
predicate everywhere. -/
theorem takeWhile_append_all {α : Type} (p : α → Bool) (l₁ l₂ : List α)
    (h : ∀ a ∈ l₁, p a = true) :
    (l₁ ++ l₂).takeWhile p = l₁ ++ l₂.takeWhile p := by
  induction l₁ with
  | nil => simp
  | cons a t ih =>
    have ih2 := ih (fun x hx => h x (by simp [hx]))
    simp [List.takeWhile_cons, h a (by simp), ih2]

/-- Helper: `dropWhile` over an append whose first part satisfies the
predicate everywhere. -/
theorem dropWhile_append_all {α : Type} (p : α → Bool) (l₁ l₂ : List α)
    (h : ∀ a ∈ l₁, p a = true) :
    (l₁ ++ l₂).dropWhile p = l₂.dropWhile p := by
  induction l₁ with
  | nil => simp
  | cons a t ih =>
    have ih2 := ih (fun x hx => h x (by simp [hx]))
    simp [List.dropWhile_cons, h a (by simp), ih2]

/-- Helper: the first element surviving `dropWhile` falsifies the
predicate. -/
theorem dropWhile_head_false {α : Type} (p : α → Bool) (l : List α) (c : α) (t : List α)
    (h : l.dropWhile p = c :: t) : p c = false := by
  induction l with
  | nil => simp at h
  | cons a l ih =>
    rw [List.dropWhile_cons] at h
    by_cases hp : p a = true
    · exact ih (by simpa [hp] using h)
    · have := (by simpa [hp] using h : a = c ∧ l = t)
      rw [← this.1]
      exact Bool.eq_false_iff.mpr hp

/-- Helper: `splitHost` over an append whose first part contains no
`/` or `?`. -/
theorem splitHost_append_all (l₁ l₂ : List Char)
    (h : ∀ c ∈ l₁, ¬(c = '/' ∨ c = '?')) :
    splitHost (l₁ ++ l₂) = (l₁ ++ (splitHost l₂).1, (splitHost l₂).2) := by
  induction l₁ with
  | nil => simp
  | cons a t ih =>
    have ih2 := ih (fun x hx => h x (by simp [hx]))
    simp [splitHost, h a (by simp), ih2]

/-- Helper: `splitHost` stops at a leading `/` or `?`. -/
theorem splitHost_cons_stop (c : Char) (l : List Char) (h : c = '/' ∨ c = '?') :
    splitHost (c :: l) = ([], c :: l) := by
  simp [splitHost, h]

/-- Helper: `splitOnChar` of a separator-free list is that single
piece. -/
theorem splitOnChar_all (sep : Char) (l : List Char) (h : ∀ c ∈ l, c ≠ sep) :
    splitOnChar sep l = [l] := by
  induction l with
  | nil => rfl
  | cons a t ih =>
    have ih2 := ih (fun x hx => h x (by simp [hx]))
    simp [splitOnChar, h a (by simp), ih2]

/-- Helper: `splitOnChar` peels a separator-free piece before a
separator. -/
theorem splitOnChar_append_sep (sep : Char) (piece l : List Char)
    (h : ∀ c ∈ piece, c ≠ sep) :
    splitOnChar sep (piece ++ sep :: l) = piece :: splitOnChar sep l := by
  induction piece with
  | nil => simp [splitOnChar]
  | cons a t ih =>
    have ih2 := ih (fun x hx => h x (by simp [hx]))
    simp [splitOnChar, h a (by simp), ih2]

/-- Helper: `splitOnChar` never returns the empty list. -/
theorem splitOnChar_ne_nil (sep : Char) (l : List Char) : splitOnChar sep l ≠ [] := by
  cases l with
  | nil => simp [splitOnChar]
  | cons c rest =>
    simp only [splitOnChar]
    split
    · simp
    · cases hs : splitOnChar sep rest <;> simp

/-- Helper: path-safe characters are not URL separators. -/
theorem pathCharOk_ne (c : Char) (h : pathCharOk c = true) : c ≠ ':' ∧ c ≠ '?' := by
  refine ⟨fun hc => ?_, fun hc => ?_⟩ <;> subst hc <;> revert h <;> decide

/-- Helper: parameter-safe characters are not URL or query separators.
-/
theorem paramCharOk_ne (c : Char) (h : paramCharOk c = true) :
    c ≠ ':' ∧ c ≠ '?' ∧ c ≠ '&' ∧ c ≠ '=' := by
  refine ⟨fun hc => ?_, fun hc => ?_, fun hc => ?_, fun hc => ?_⟩
    <;> subst hc <;> revert h <;> decide

/-- Helper: a colon-free endpoint contains no `://`. -/
theorem hasSubstr_colon_false (s : List Char) (h : ∀ c ∈ s, c ≠ ':') :
    hasSubstr s "://".data = false := by
  induction s with
  | nil => rfl
  | cons c cs ih =>
    have hc : c ≠ ':' := h c (by simp)
    have hb : ((':' : Char) == c) = false := beq_eq_false_iff_ne.mpr (Ne.symm hc)
    have ih2 := ih (fun x hx => h x (by simp [hx]))
    simp [hasSubstr, show "://".data = [':', '/', '/'] from rfl, List.isPrefixOf, hb, ih2]

/-- Helper: characters of the serialized query come from the parameters
or are `=`/`&`. -/
theorem mem_renderQueryInner (c : Char) (ps : List (String × String))
    (hc : c ∈ renderQueryInner ps) :
    (∃ p ∈ ps, c ∈ p.1.data ∨ c ∈ p.2.data) ∨ c = '=' ∨ c = '&' := by
  induction ps with
  | nil => simp [renderQueryInner] at hc
  | cons p rest ih =>
    cases rest with
    | nil =>
      simp [renderQueryInner] at hc
      rcases hc with h1 | h1 | h1
      · exact Or.inl ⟨p, by simp, Or.inl h1⟩
      · exact Or.inr (Or.inl h1)
      · exact Or.inl ⟨p, by simp, Or.inr h1⟩
    | cons q rest2 =>
      rw [renderQueryInner] at hc
      simp only [List.mem_append, List.mem_cons] at hc
      rcases hc with (h1 | h1 | h1) | h1 | h1
      · exact Or.inl ⟨p, by simp, Or.inl h1⟩
      · exact Or.inr (Or.inl h1)
      · exact Or.inl ⟨p, by simp, Or.inr h1⟩
      · exact Or.inr (Or.inr h1)
      · rcases ih h1 with ⟨p2, hp2, hcp⟩ | h2
        · exact Or.inl ⟨p2, by simp [hp2], hcp⟩
        · exact Or.inr h2

/-- Helper: the serialized search component contains no colon when the
parameters are plain. -/
theorem renderSearch_no_colon (ps : List (String × String)) (hps : ∀ p ∈ ps, paramOk p)
    (c : Char) (hc : c ∈ renderSearch ps) : c ≠ ':' := by
  unfold renderSearch at hc
  split at hc
  · simp at hc
  · simp only [List.mem_cons] at hc
    rcases hc with rfl | hc
    · decide
    · rcases mem_renderQueryInner c ps hc with ⟨p, hp, hcp | hcp⟩ | rfl | rfl
      · exact (paramCharOk_ne c ((hps p hp).1 c hcp)).1
      · exact (paramCharOk_ne c ((hps p hp).2 c hcp)).1
      · decide
      · decide

/-- Helper: `URLSearchParams` parsing inverts the serialization of one
`name=value` piece when the name contains no `=`. -/
theorem parsePair_render (n v : String) (hn : ∀ c ∈ n.data, c ≠ '=') :
    parsePair (n.data ++ '=' :: v.data) = some (n, v) := by
  have hn2 : ∀ c ∈ n.data, (c != '=') = true := fun c hc => by simp [hn c hc]
  have ht : (n.data ++ '=' :: v.data).takeWhile (fun c => c != '=') = n.data := by
    rw [takeWhile_append_all _ _ _ hn2]
    simp [List.takeWhile_cons]
  have hd : (n.data ++ '=' :: v.data).dropWhile (fun c => c != '=') = '=' :: v.data := by
    rw [dropWhile_append_all _ _ _ hn2]
    simp [List.dropWhile_cons]
  simp [parsePair, ht, hd]

/-- Helper: `URLSearchParams` parsing inverts the query serialization
for plain parameters. -/
theorem parseQuery_render (ps : List (String × String)) (hps : ∀ p ∈ ps, paramOk p) :
    parseQuery (renderQueryInner ps) = ps := by
  induction ps with
  | nil => rfl
  | cons p rest ih =>
    have hname : ∀ c ∈ p.1.data, c ≠ '=' :=
      fun c hc => (paramCharOk_ne c ((hps p (by simp)).1 c hc)).2.2.2
    have hpiece : ∀ c ∈ p.1.data ++ '=' :: p.2.data, c ≠ '&' := by
      intro c hc
      simp only [List.mem_append, List.mem_cons] at hc
      rcases hc with hc | rfl | hc
      · exact (paramCharOk_ne c ((hps p (by simp)).1 c hc)).2.2.1
      · decide
      · exact (paramCharOk_ne c ((hps p (by simp)).2 c hc)).2.2.1
    cases rest with
    | nil =>
      unfold parseQuery renderQueryInner
      rw [splitOnChar_all _ _ hpiece]
      simp [parsePair_render p.1 p.2 hname]
    | cons q rest2 =>
      have ih2 := ih (fun x hx => hps x (by simp [hx]))
      unfold parseQuery renderQueryInner
      rw [show p.1.data ++ '=' :: p.2.data ++ '&' :: renderQueryInner (q :: rest2)
            = (p.1.data ++ '=' :: p.2.data) ++ '&' :: renderQueryInner (q :: rest2) by simp]
      rw [splitOnChar_append_sep _ _ _ hpiece]
      simp only [List.filterMap_cons, parsePair_render p.1 p.2 hname]
      unfold parseQuery at ih2
      rw [ih2]

/-- Helper: `pathAndQuery` on an empty remainder. -/
theorem pathAndQuery_nil : pathAndQuery [] = (['/'], []) := by
  simp [pathAndQuery]

/-- Helper: `pathAndQuery` on a remainder that starts with the query.
-/
theorem pathAndQuery_qmark (qs : List Char) : pathAndQuery ('?' :: qs) = (['/'], qs) := by
  simp [pathAndQuery]

/-- Helper: `pathAndQuery` on a remainder that starts with a path
character. -/
theorem pathAndQuery_cons (c : Char) (l : List Char) (h : c ≠ '?') :
    pathAndQuery (c :: l)
      = ((c :: l).takeWhile (fun x => x != '?'),
         ((c :: l).dropWhile (fun x => x != '?')).tail) := by
  simp [pathAndQuery, h]

/-- Helper: normal form of `Cache.getCacheKeyList` on a plain endpoint
with an explicit query: the dummy host absorbs everything up to the
first slash of the path (and is dropped), and the query reappears with
`apiKey` deleted and the remaining parameters stably sorted by name. -/
theorem getCacheKeyList_renderEndpoint (path : List Char) (ps : List (String × String))
    (hpath : ∀ c ∈ path, pathCharOk c = true) (hps : ∀ p ∈ ps, paramOk p) :
    Cache.getCacheKeyList (path ++ renderSearch ps)
      = pathnameOf path
        ++ renderSearch (List.insertionSort nameLe (ps.filter (fun p => p.1 != "apiKey"))) := by
  have hnc : ∀ c ∈ path ++ renderSearch ps, c ≠ ':' := by
    intro c hc
    rcases List.mem_append.mp hc with hc | hc
    · exact (pathCharOk_ne c (hpath c hc)).1
    · exact renderSearch_no_colon ps hps c hc
  have hscheme : hasSubstr (path ++ renderSearch ps) "://".data = false :=
    hasSubstr_colon_false _ hnc
  have hsplit : path.takeWhile (fun c => c != '/') ++ path.dropWhile (fun c => c != '/') = path :=
    List.takeWhile_append_dropWhile _ _
  have hhost : ∀ c ∈ "dummy.base".data ++ path.takeWhile (fun c => c != '/'),
      ¬(c = '/' ∨ c = '?') := by
    have hd : ∀ c ∈ "dummy.base".data, ¬(c = '/' ∨ c = '?') := by decide
    intro c hc
    rcases List.mem_append.mp hc with hc | hc
    · exact hd c hc
    · have h1 := List.mem_takeWhile_imp hc
      have h2 : c ∈ path := (List.takeWhile_sublist _).subset hc
      rintro (rfl | rfl)
      · simp at h1
      · exact (pathCharOk_ne _ (hpath _ h2)).2 rfl
  have harg : "dummy.base".data ++ (path ++ renderSearch ps)
      = ("dummy.base".data ++ path.takeWhile (fun c => c != '/'))
        ++ (path.dropWhile (fun c => c != '/') ++ renderSearch ps) := by
    rw [List.append_assoc, ← List.append_assoc (path.takeWhile (fun c => c != '/')), hsplit]
  have hdq : ∀ c ∈ path.dropWhile (fun c => c != '/'), c ≠ '?' := by
    intro c hc
    exact (pathCharOk_ne _ (hpath _ ((List.dropWhile_sublist _).subset hc))).2
  simp only [Cache.getCacheKeyList]
  rw [if_neg (by rw [hscheme]; exact Bool.false_ne_true)]
  rw [show dropScheme ("http://dummy.base".data ++ (path ++ renderSearch ps))
        = "dummy.base".data ++ (path ++ renderSearch ps) from rfl]
  rw [harg, splitHost_append_all _ _ hhost]
  rcases hdw : path.dropWhile (fun c => c != '/') with _ | ⟨c0, d'⟩
  · -- the path has no slash: the whole path is absorbed into the host
    have hpn : pathnameOf path = ['/'] := by simp [pathnameOf, hdw]
    by_cases hemp : ps = []
    · subst hemp
      simp [renderSearch, splitHost, pathAndQuery, parseQuery, splitOnChar, parsePair, hpn]
    · have hrs : renderSearch ps = '?' :: renderQueryInner ps := by
        simp [renderSearch, hemp]
      rw [hrs]
      rw [show ([] : List Char) ++ '?' :: renderQueryInner ps = '?' :: renderQueryInner ps from rfl]
      rw [splitHost_cons_stop '?' _ (Or.inr rfl)]
      simp only [pathAndQuery_qmark]
      rw [parseQuery_render ps hps, hpn]
  · -- the path has a slash: the pathname is the part from the first slash
    have hc0 : c0 = '/' := by
      have := dropWhile_head_false _ _ _ _ hdw
      simpa using this
    subst hc0
    have hpn : pathnameOf path = '/' :: d' := by simp [pathnameOf, hdw]
    have hd' : ∀ c ∈ d', (c != '?') = true := by
      intro c hc
      have : c ∈ path.dropWhile (fun c => c != '/') := by rw [hdw]; simp [hc]
      simpa using hdq c this
    rw [show '/' :: d' ++ renderSearch ps = '/' :: (d' ++ renderSearch ps) from rfl]
    rw [splitHost_cons_stop '/' _ (Or.inl rfl)]
    have hhq : pathAndQuery ('/' :: (d' ++ renderSearch ps))
        = ('/' :: d', if ps.isEmpty then [] else renderQueryInner ps) := by
      rw [pathAndQuery_cons '/' _ (by decide)]
      by_cases hemp : ps = []
      · subst hemp
        have ht := takeWhile_append_all (fun c => c != '?') d' [] hd'
        have hdr := dropWhile_append_all (fun c => c != '?') d' [] hd'
        simp only [List.append_nil, List.takeWhile_nil] at ht
        simp only [List.append_nil, List.dropWhile_nil] at hdr
        simp [renderSearch, List.takeWhile_cons, List.dropWhile_cons, ht, hdr]
      · have hrs : renderSearch ps = '?' :: renderQueryInner ps := by
          simp [renderSearch, hemp]
        rw [hrs]
        have ht := takeWhile_append_all (fun c => c != '?') d' ('?' :: renderQueryInner ps) hd'
        have hdr := dropWhile_append_all (fun c => c != '?') d' ('?' :: renderQueryInner ps) hd'
        simp [renderSearch, hemp, ht, hdr, List.takeWhile_cons, List.dropWhile_cons]
    rw [hhq, hpn]
    by_cases hemp : ps = []
    · subst hemp
      simp [parseQuery, splitOnChar, parsePair]
    · have hif : (if ps.isEmpty then ([] : List Char) else renderQueryInner ps)
          = renderQueryInner ps := by simp [hemp]
      rw [hif, parseQuery_render ps hps]

/-- Helper: two permuted parameter lists with pairwise-distinct names
have the same sort. -/
theorem insertionSort_perm_eq (l₁ l₂ : List (String × String))
    (hperm : l₁.Perm l₂) (hnd : l₁.Pairwise (fun a b => a.1 ≠ b.1)) :
    List.insertionSort nameLe l₁ = List.insertionSort nameLe l₂ := by
  have hstrict : ∀ (l : List (String × String)), l.Sorted nameLe →
      l.Pairwise (fun a b => a.1 ≠ b.1) → l.Sorted nameLt := by
    intro l hle hne
    exact (hle.and hne).imp (fun hab =>
      lt_of_le_of_ne hab.1 (fun hd => hab.2 (by
        rcases hab with ⟨-, -⟩
        exact String.ext hd)))
  have hnd₁ : (List.insertionSort nameLe l₁).Pairwise (fun a b => a.1 ≠ b.1) :=
    ((List.perm_insertionSort nameLe l₁).pairwise_iff (fun hab => Ne.symm hab)).mpr hnd
  have hnd₂ : (List.insertionSort nameLe l₂).Pairwise (fun a b => a.1 ≠ b.1) :=
    ((List.perm_insertionSort nameLe l₂).pairwise_iff (fun hab => Ne.symm hab)).mpr
      ((hperm.pairwise_iff (fun hab => Ne.symm hab)).mp hnd)
  exact List.eq_of_perm_of_sorted
    ((List.perm_insertionSort nameLe l₁).trans
      (hperm.trans (List.perm_insertionSort nameLe l₂).symm))
    (hstrict _ (List.sorted_insertionSort nameLe l₁) hnd₁)
    (hstrict _ (List.sorted_insertionSort nameLe l₂) hnd₂)

/-- Helper: a derived pathname always starts with a slash. -/
theorem pathnameOf_shape (l : List Char) : ∃ t, pathnameOf l = '/' :: t := by
  unfold pathnameOf
  rcases hdw : l.dropWhile (fun c => c != '/') with _ | ⟨c0, d'⟩
  · exact ⟨[], rfl⟩
  · have hc0 : c0 = '/' := by simpa using dropWhile_head_false _ _ _ _ hdw
    subst hc0
    exact ⟨d', rfl⟩

/-- Helper: a list that already starts with a slash is its own
pathname. -/
theorem pathnameOf_slash (t : List Char) : pathnameOf ('/' :: t) = '/' :: t := by
  simp [pathnameOf, List.dropWhile_cons]

/-- Helper: pathname characters come from the path, or are the slash.
-/
theorem pathnameOf_chars (l : List Char) (h : ∀ c ∈ l, pathCharOk c = true) :
    ∀ c ∈ pathnameOf l, pathCharOk c = true := by
  intro c hc
  unfold pathnameOf at hc
  rcases hdw : l.dropWhile (fun c => c != '/') with _ | ⟨c0, d'⟩
  · rw [hdw] at hc
    simp at hc
    subst hc
    decide
  · rw [hdw] at hc
    have hc2 : c ∈ l.dropWhile (fun c => c != '/') := by
      rw [hdw]
      simpa using hc
    exact h c ((List.dropWhile_sublist _).subset hc2)

/-- Helper: looking up a key right after a `Map.set` of that key yields
the value just stored. -/
theorem mapGet_mapSet_self {β : Type} (m : JSMap β) (k : String) (v : β) :
    mapGet (mapSet m k v) k = some v := by
  induction m with
  | nil => simp [mapGet, mapSet]
  | cons p rest ih =>
    by_cases h : (p.1 == k) = true
    · simp [mapSet, h, mapGet]
    · simp [mapSet, h, mapGet, ih]

/-- C4: with the cache enabled, a write through `Cache.set` requesting
a custom TTL stores the entry with effective TTL equal to the lesser of
the requested TTL and the configured `ttlMs`; consequently a lookup
strictly after that effective TTL has elapsed misses, and a lookup at
or before it hits. -/
theorem cacheSet_effective_ttl {α : Type} (cfg : CacheConfig) (m : JSMap (CacheEntry α))
    (now t : Int) (k : String) (data : α) (c : Int) (h : cfg.enabled = true) :
    mapGet (Cache.set cfg m now k data (some c)) k
      = some { data := data, timestamp := now, ttl := min c cfg.ttlMs }
    ∧ (t - now > min c cfg.ttlMs →
        (Cache.get cfg (Cache.set cfg m now k data (some c)) t k).1 = none)
    ∧ (¬(t - now > min c cfg.ttlMs) →
        (Cache.get cfg (Cache.set cfg m now k data (some c)) t k).1 = some data) := by
  have hset : mapGet (Cache.set cfg m now k data (some c)) k
      = some { data := data, timestamp := now, ttl := min c cfg.ttlMs } := by
    simp [Cache.set, h, mapGet_mapSet_self]
  refine ⟨hset, fun hexp => ?_, fun hfresh => ?_⟩
  · simp [Cache.get, h, hset, hexp]
  · simp [Cache.get, h, hset, hfresh]

/-- Witness for `cacheSet_effective_ttl`: a store-wide `ttlMs` of
500 ms, a write requesting 1000 ms, a lookup 501 ms later misses. -/
theorem cacheSet_effective_ttl_witness :
    (({ enabled := true, ttlMs := 500, maxEntries := 100 } : CacheConfig).enabled = true)
    ∧ (mapGet (Cache.set { enabled := true, ttlMs := 500, maxEntries := 100 }
          ([] : JSMap (CacheEntry ℕ)) 0 "k" 7 (some 1000)) "k"
        = some { data := 7, timestamp := 0, ttl := min 1000 500 }
      ∧ ((501 : Int) - 0 > min 1000 500 →
          (Cache.get { enabled := true, ttlMs := 500, maxEntries := 100 }
            (Cache.set { enabled := true, ttlMs := 500, maxEntries := 100 }
              ([] : JSMap (CacheEntry ℕ)) 0 "k" 7 (some 1000)) 501 "k").1 = none)
      ∧ (¬((501 : Int) - 0 > min 1000 500) →
          (Cache.get { enabled := true, ttlMs := 500, maxEntries := 100 }
            (Cache.set { enabled := true, ttlMs := 500, maxEntries := 100 }
              ([] : JSMap (CacheEntry ℕ)) 0 "k" 7 (some 1000)) 501 "k").1 = some 7)) :=
  ⟨rfl, cacheSet_effective_ttl _ _ 0 501 "k" 7 1000 rfl⟩

/-- C8: with the cache enabled and the entry count at or above the
configured capacity, `Cache.set` removes exactly the first-inserted
entry before inserting (insertion-order eviction); concretely, with
capacity 2 and three distinct keys inserted, the first key misses while
the other two are still retrievable within their TTLs. -/
theorem cacheSet_evicts_oldest {α : Type} (cfg : CacheConfig) (e0 : String × CacheEntry α)
    (m : JSMap (CacheEntry α)) (now : Int) (k : String) (d : α) (c : Option Int)
    (h : cfg.enabled = true) (hfull : cfg.maxEntries ≤ (e0 :: m).length) :
    Cache.set cfg (e0 :: m) now k d c
      = mapSet m k { data := d, timestamp := now, ttl := min (c.getD cfg.ttlMs) cfg.ttlMs }
    ∧ (Cache.get capTwoConfig threeInserts 0 "k1").1 = none
    ∧ (Cache.get capTwoConfig threeInserts 0 "k2").1 = some 2
    ∧ (Cache.get capTwoConfig threeInserts 0 "k3").1 = some 3 := by
  refine ⟨?_, by decide, by decide, by decide⟩
  have hfull2 : cfg.maxEntries ≤ m.length + 1 := by simpa using hfull
  simp [Cache.set, Cache.evictEntries, h, hfull2]

/-- Witness for `cacheSet_evicts_oldest` at a concrete full store. -/
theorem cacheSet_evicts_oldest_witness :
    (capTwoConfig.enabled = true)
    ∧ (capTwoConfig.maxEntries
        ≤ (((("a", { data := 1, timestamp := 0, ttl := 5 }) :: [("b", { data := 2, timestamp := 0, ttl := 5 })]) : JSMap (CacheEntry ℕ)).length))
    ∧ (Cache.set capTwoConfig
          (("a", { data := 1, timestamp := 0, ttl := 5 }) :: [("b", { data := 2, timestamp := 0, ttl := 5 })])
          0 "c" 3 none
        = mapSet [("b", { data := 2, timestamp := 0, ttl := 5 })] "c"
            { data := 3, timestamp := 0, ttl := min ((none : Option Int).getD capTwoConfig.ttlMs) capTwoConfig.ttlMs }
      ∧ (Cache.get capTwoConfig threeInserts 0 "k1").1 = none
      ∧ (Cache.get capTwoConfig threeInserts 0 "k2").1 = some 2
      ∧ (Cache.get capTwoConfig threeInserts 0 "k3").1 = some 3) :=
  ⟨rfl, by decide,
    cacheSet_evicts_oldest capTwoConfig _ _ 0 "c" 3 none rfl (by decide)⟩

/-- C5: with rate limiting enabled, queueing disabled, a cache miss,
and at least the hourly ceiling of requests recorded within the
trailing hour, `makeRequest`'s admission phase rejects with
`RateLimitError` (never reaching the network dispatch), records no new
timestamp, and leaves the request list pruned of every timestamp at or
older than one hour — so every remaining recorded timestamp is strictly
within the window. -/
theorem saturated_request_rejected {α : Type} (ccfg : CacheConfig) (rcfg : RateLimitConfig)
    (st : ClientState α) (now : Int) (endpoint : String)
    (hen : rcfg.enabled = true) (hq : rcfg.queueRequests = false)
    (hmiss : (getCachedResponse ccfg st.cache now (clientGetCacheKey endpoint)).1 = none)
    (hfull : rcfg.requestsPerHour ≤
      (st.rate.requests.filter (fun t => decide (t > now - 60 * 60 * 1000))).length) :
    makeRequestAdmission ccfg rcfg st now endpoint
      = (RequestStep.rejectedRateLimited,
          { cache := (getCachedResponse ccfg st.cache now (clientGetCacheKey endpoint)).2
            rate := { st.rate with
              requests := st.rate.requests.filter (fun t => decide (t > now - 60 * 60 * 1000)) } })
    ∧ ∀ x ∈ st.rate.requests.filter (fun t => decide (t > now - 60 * 60 * 1000)),
        now - 60 * 60 * 1000 < x := by
  constructor
  · simp [makeRequestAdmission, isWithinRateLimit, hen, hq, hmiss]
    simpa using hfull
  · intro x hx
    simp only [List.mem_filter, decide_eq_true_eq] at hx
    exact hx.2

/-- Witness for `saturated_request_rejected`: ceiling 2 with two
recent timestamps recorded, cache disabled (hence a miss). -/
theorem saturated_request_rejected_witness :
    (({ enabled := true, requestsPerHour := 2, queueRequests := false } : RateLimitConfig).enabled = true)
    ∧ (({ enabled := true, requestsPerHour := 2, queueRequests := false } : RateLimitConfig).queueRequests = false)
    ∧ ((getCachedResponse { enabled := false, ttlMs := 0, maxEntries := 100 }
          (([] : JSMap (CacheEntry ℕ))) 7200000 (clientGetCacheKey "tle/25544")).1 = none)
    ∧ (({ enabled := true, requestsPerHour := 2, queueRequests := false } : RateLimitConfig).requestsPerHour ≤
        (([7199000, 7198000] : List Int).filter
          (fun t => decide (t > 7200000 - 60 * 60 * 1000))).length)
    ∧ (makeRequestAdmission { enabled := false, ttlMs := 0, maxEntries := 100 }
          { enabled := true, requestsPerHour := 2, queueRequests := false }
          ({ cache := [], rate := { requests := [7199000, 7198000], processing := false, queueLength := 0 } } : ClientState ℕ)
          7200000 "tle/25544"
        = (RequestStep.rejectedRateLimited,
            { cache := (getCachedResponse { enabled := false, ttlMs := 0, maxEntries := 100 }
                ([] : JSMap (CacheEntry ℕ)) 7200000 (clientGetCacheKey "tle/25544")).2
              rate := { requests := ([7199000, 7198000] : List Int).filter
                          (fun t => decide (t > 7200000 - 60 * 60 * 1000))
                        processing := false, queueLength := 0 } })
        ∧ ∀ x ∈ ([7199000, 7198000] : List Int).filter
              (fun t => decide (t > 7200000 - 60 * 60 * 1000)),
            (7200000 : Int) - 60 * 60 * 1000 < x) :=
  ⟨rfl, rfl, rfl, by decide,
    saturated_request_rejected _ _ _ 7200000 "tle/25544" rfl rfl rfl (by decide)⟩

/-- C7: with rate limiting enabled, the executor `makeActualRequest`
records exactly one rate-limit timestamp whether the fetch succeeds or
fails, leaves the cache unchanged on every failure, performs exactly
the single `setCachedResponse` write on success — and a cache hit in
the admission phase returns with the rate-limit state untouched. -/
theorem makeActualRequest_effects {α : Type} (ccfg : CacheConfig) (rcfg : RateLimitConfig)
    (st : ClientState α) (now : Int) (cacheKey : String) (customTtl : Option Int)
    (outcome : FetchOutcome α) (hr : rcfg.enabled = true) :
    (makeActualRequest ccfg rcfg st now cacheKey customTtl outcome).2.rate.requests
      = st.rate.requests ++ [now]
    ∧ (∀ e, (makeActualRequest ccfg rcfg st now cacheKey customTtl outcome).1 = .error e →
        (makeActualRequest ccfg rcfg st now cacheKey customTtl outcome).2.cache = st.cache)
    ∧ (∀ d, (makeActualRequest ccfg rcfg st now cacheKey customTtl outcome).1 = .ok d →
        (makeActualRequest ccfg rcfg st now cacheKey customTtl outcome).2.cache
          = setCachedResponse ccfg st.cache now cacheKey d customTtl)
    ∧ (∀ (endpoint : String) (d : α),
        (getCachedResponse ccfg st.cache now (clientGetCacheKey endpoint)).1 = some d →
        makeRequestAdmission ccfg rcfg st now endpoint
          = (RequestStep.cacheHit d,
              { st with cache := (getCachedResponse ccfg st.cache now (clientGetCacheKey endpoint)).2 })) := by
  refine ⟨?_, ?_, ?_, ?_⟩
  · cases outcome with
    | transportError msg => simp [makeActualRequest, recordRequest, hr]
    | errorResponse r => simp [makeActualRequest, recordRequest, hr]
    | success body => cases body <;> simp [makeActualRequest, recordRequest, hr]
  · intro e he
    cases outcome with
    | transportError msg => simp [makeActualRequest]
    | errorResponse r => simp [makeActualRequest]
    | success body =>
      cases body with
      | none => simp [makeActualRequest]
      | some d => simp [makeActualRequest] at he
  · intro d hd
    cases outcome with
    | transportError msg => simp [makeActualRequest] at hd
    | errorResponse r => simp [makeActualRequest] at hd
    | success body =>
      cases body with
      | none => simp [makeActualRequest] at hd
      | some d2 =>
        simp [makeActualRequest, recordRequest, hr] at hd ⊢
        subst hd
        rfl
  · intro endpoint d hhit
    simp [makeRequestAdmission, hhit]

/-- Witness for `makeActualRequest_effects` at a successful concrete
call with a cache hit scenario for the last conjunct. -/
theorem makeActualRequest_effects_witness :
    (({ enabled := true, requestsPerHour := 1000, queueRequests := true } : RateLimitConfig).enabled = true)
    ∧ ((makeActualRequest { enabled := true, ttlMs := 100, maxEntries := 10 }
          { enabled := true, requestsPerHour := 1000, queueRequests := true }
          ({ cache := [], rate := { requests := [], processing := false, queueLength := 0 } } : ClientState ℕ)
          5 "tle/25544" none (FetchOutcome.success (some 42))).2.rate.requests
        = ([] : List Int) ++ [5]
      ∧ (∀ e, (makeActualRequest { enabled := true, ttlMs := 100, maxEntries := 10 }
          { enabled := true, requestsPerHour := 1000, queueRequests := true }
          ({ cache := [], rate := { requests := [], processing := false, queueLength := 0 } } : ClientState ℕ)
          5 "tle/25544" none (FetchOutcome.success (some 42))).1 = .error e →
        (makeActualRequest { enabled := true, ttlMs := 100, maxEntries := 10 }
          { enabled := true, requestsPerHour := 1000, queueRequests := true }
          ({ cache := [], rate := { requests := [], processing := false, queueLength := 0 } } : ClientState ℕ)
          5 "tle/25544" none (FetchOutcome.success (some 42))).2.cache = [])
      ∧ (∀ d, (makeActualRequest { enabled := true, ttlMs := 100, maxEntries := 10 }
          { enabled := true, requestsPerHour := 1000, queueRequests := true }
          ({ cache := [], rate := { requests := [], processing := false, queueLength := 0 } } : ClientState ℕ)
          5 "tle/25544" none (FetchOutcome.success (some 42))).1 = .ok d →
        (makeActualRequest { enabled := true, ttlMs := 100, maxEntries := 10 }
          { enabled := true, requestsPerHour := 1000, queueRequests := true }
          ({ cache := [], rate := { requests := [], processing := false, queueLength := 0 } } : ClientState ℕ)
          5 "tle/25544" none (FetchOutcome.success (some 42))).2.cache
          = setCachedResponse { enabled := true, ttlMs := 100, maxEntries := 10 } [] 5 "tle/25544" d none)
      ∧ (∀ (endpoint : String) (d : ℕ),
          (getCachedResponse { enabled := true, ttlMs := 100, maxEntries := 10 }
            ([] : JSMap (CacheEntry ℕ)) 5 (clientGetCacheKey endpoint)).1 = some d →
          makeRequestAdmission { enabled := true, ttlMs := 100, maxEntries := 10 }
            { enabled := true, requestsPerHour := 1000, queueRequests := true }
            ({ cache := [], rate := { requests := [], processing := false, queueLength := 0 } } : ClientState ℕ)
            5 endpoint
            = (RequestStep.cacheHit d,
                { cache := (getCachedResponse { enabled := true, ttlMs := 100, maxEntries := 10 }
                    ([] : JSMap (CacheEntry ℕ)) 5 (clientGetCacheKey endpoint)).2
                  rate := { requests := [], processing := false, queueLength := 0 } }))) :=
  ⟨rfl, makeActualRequest_effects _ _ _ 5 "tle/25544" none (FetchOutcome.success (some 42)) rfl⟩

/-- C6: the exact validation boundaries — latitude 91 rejected while
−90 and 90 pass, prediction seconds 0 and 301 rejected while 1 and 300
pass, prediction days 0 and 11 rejected while 1 and 10 pass (seconds
and days must be integers) — and precedence: any validation failure
makes `getPositions` / `getVisualPasses` throw `InvalidParameterError`
with the client state unchanged, before any network, cache or
rate-limit bookkeeping. -/
theorem validation_boundaries_and_precedence {α : Type} (render : JSNum → String)
    (ccfg : CacheConfig) (rcfg : RateLimitConfig) (st : ClientState α) (now : Int)
    (id lat lng alt secs : JSNum) (issue : String × String)
    (hv : validateGetPositions id lat lng alt secs = some issue)
    (id2 lat2 lng2 alt2 days mv : JSNum) (issue2 : String × String)
    (hv2 : validateGetVisualPasses id2 lat2 lng2 alt2 days mv = some issue2) :
    validateGetPositions (.num 25544) (.num 91) (.num 0) (.num 0) (.num 60)
      = some ("observerLat", "Latitude must be between -90 and 90 degrees")
    ∧ validateGetPositions (.num 25544) (.num (-90)) (.num 0) (.num 0) (.num 60) = none
    ∧ validateGetPositions (.num 25544) (.num 90) (.num 0) (.num 0) (.num 60) = none
    ∧ validateGetPositions (.num 25544) (.num 0) (.num 0) (.num 0) (.num 0)
      = some ("seconds", "Seconds must be between 1 and 300")
    ∧ validateGetPositions (.num 25544) (.num 0) (.num 0) (.num 0) (.num 301)
      = some ("seconds", "Seconds must be between 1 and 300")
    ∧ validateGetPositions (.num 25544) (.num 0) (.num 0) (.num 0) (.num 1) = none
    ∧ validateGetPositions (.num 25544) (.num 0) (.num 0) (.num 0) (.num 300) = none
    ∧ validateGetPositions (.num 25544) (.num 0) (.num 0) (.num 0) (.num (mkRat 5 2))
      = some ("seconds", "Seconds must be an integer")
    ∧ validateGetVisualPasses (.num 25544) (.num 0) (.num 0) (.num 0) (.num 0) (.num 30)
      = some ("days", "Days must be between 1 and 10")
    ∧ validateGetVisualPasses (.num 25544) (.num 0) (.num 0) (.num 0) (.num 11) (.num 30)
      = some ("days", "Days must be between 1 and 10")
    ∧ validateGetVisualPasses (.num 25544) (.num 0) (.num 0) (.num 0) (.num 1) (.num 30) = none
    ∧ validateGetVisualPasses (.num 25544) (.num 0) (.num 0) (.num 0) (.num 10) (.num 30) = none
    ∧ validateGetVisualPasses (.num 25544) (.num 0) (.num 0) (.num 0) (.num (mkRat 5 2)) (.num 30)
      = some ("days", "Days must be an integer")
    ∧ getPositionsStep render ccfg rcfg st now id lat lng alt secs
      = (.error (zodThrow issue), st)
    ∧ getVisualPassesStep render ccfg rcfg st now id2 lat2 lng2 alt2 days mv
      = (.error (zodThrow issue2), st) := by
  refine ⟨by decide, by decide, by decide, by decide, by decide, by decide, by decide,
    by decide, by decide, by decide, by decide, by decide, by decide, ?_, ?_⟩
  · simp [getPositionsStep, hv]
  · simp [getVisualPassesStep, hv2]

/-- Witness for `validation_boundaries_and_precedence` at latitude 91
and days 11. -/
theorem validation_boundaries_witness :
    (validateGetPositions (.num 25544) (.num 91) (.num 0) (.num 0) (.num 60)
      = some ("observerLat", "Latitude must be between -90 and 90 degrees"))
    ∧ (validateGetVisualPasses (.num 25544) (.num 0) (.num 0) (.num 0) (.num 11) (.num 30)
      = some ("days", "Days must be between 1 and 10"))
    ∧ (getPositionsStep (α := Unit) (fun _ => "") { enabled := true, ttlMs := 100, maxEntries := 10 }
        { enabled := true, requestsPerHour := 1000, queueRequests := true }
        { cache := [], rate := { requests := [], processing := false, queueLength := 0 } } 0
        (.num 25544) (.num 91) (.num 0) (.num 0) (.num 60)
      = (.error (zodThrow ("observerLat", "Latitude must be between -90 and 90 degrees")),
          { cache := [], rate := { requests := [], processing := false, queueLength := 0 } })) :=
  ⟨by decide, by decide,
    ((validation_boundaries_and_precedence (α := Unit) (fun _ => "")
        { enabled := true, ttlMs := 100, maxEntries := 10 }
        { enabled := true, requestsPerHour := 1000, queueRequests := true }
        { cache := [], rate := { requests := [], processing := false, queueLength := 0 } } 0
        (.num 25544) (.num 91) (.num 0) (.num 0) (.num 60)
        ("observerLat", "Latitude must be between -90 and 90 degrees") (by decide)
        (.num 25544) (.num 0) (.num 0) (.num 0) (.num 11) (.num 30)
        ("days", "Days must be between 1 and 10") (by decide)).2.2.2.2.2.2.2.2.2.2.2.2.2.1)⟩

/-- C2 fails as stated: `utcToLocal` validates the zone with
`UtcToLocalParamsSchema`, whose refinement rejects every zone that is
neither `UTC` (case-insensitively) nor a recognized identifier, so an
unrecognized zone throws `InvalidParameterError` instead of falling
back to UTC formatting — it does not return the `UTC` result. -/
theorem utcToLocal_throws_on_unknown_zone :
    utcToLocal tzEnvExample true (.num 0) "Invalid/Zone"
      = (.error (JSError.invalidParameter "timeZone" "unknown" "Invalid IANA time zone"), [])
    ∧ utcToLocal tzEnvExample true (.num 0) "UTC"
      = (.ok "1970-01-01 00:00:00 UTC", []) := by
  constructor <;> rfl

/-- C2 (amended): an unrecognized non-empty zone is rejected at
validation with `InvalidParameterError` (for every finite timestamp);
the silent fallback to the UTC rendering — same string as an explicit
`UTC` request, reported only through the debug channel — applies
exactly to zones that pass validation but whose formatter throws. -/
theorem utcToLocal_validation_and_fallback (env : TzEnv) (debug : Bool) (q : ℚ)
    (tz tzOk : String)
    (h1 : 1 ≤ tz.length) (h2 : jsToUpper tz ≠ "UTC") (h3 : tz ∉ env.supportedZones)
    (h4 : 1 ≤ tzOk.length) (h5 : jsToUpper tzOk ≠ "UTC") (h6 : tzOk ∈ env.supportedZones)
    (h7 : env.formatZoned tzOk q = none) :
    utcToLocal env debug (.num q) tz
      = (.error (JSError.invalidParameter "timeZone" "unknown" "Invalid IANA time zone"), [])
    ∧ (utcToLocal env true (.num q) tzOk).1 = (utcToLocal env true (.num q) "UTC").1
    ∧ (utcToLocal env true (.num q) tzOk).1 = .ok (env.isoFormat q ++ " UTC")
    ∧ (utcToLocal env true (.num q) tzOk).2
      = ["Failed to format time zone " ++ tzOk ++ ". Falling back to UTC."] := by
  have hts : utcTimestampIssue (.num q) = none := rfl
  have hlen : ¬(tz.length < 1) := Nat.not_lt.mpr h1
  have hlenOk : ¬(tzOk.length < 1) := Nat.not_lt.mpr h4
  have hzone : timeZoneIssue env tz = some "Invalid IANA time zone" := by
    simp [timeZoneIssue, hlen, h2, h3]
  have hzoneOk : timeZoneIssue env tzOk = none := by
    simp [timeZoneIssue, hlenOk, h6]
  have hutc : utcToLocal env true (.num q) "UTC" = (.ok (env.isoFormat q ++ " UTC"), []) := by
    have hU : jsToUpper "UTC" = "UTC" := rfl
    simp [utcToLocal, firstFieldIssue, hts, timeZoneIssue, hU]
  have hok : utcToLocal env true (.num q) tzOk
      = (.ok (env.isoFormat q ++ " UTC"),
          ["Failed to format time zone " ++ tzOk ++ ". Falling back to UTC."]) := by
    simp [utcToLocal, firstFieldIssue, hts, hzoneOk, h5, h7]
  refine ⟨?_, ?_, ?_, ?_⟩
  · simp [utcToLocal, firstFieldIssue, hts, hzone, zodThrow]
  · rw [hok, hutc]
  · rw [hok]
  · rw [hok]

/-- Witness for `utcToLocal_validation_and_fallback` with the concrete
unknown zone `Invalid/Zone` and the supported zone of `tzEnvExample`
whose formatter throws. -/
theorem utcToLocal_validation_and_fallback_witness :
    (1 ≤ ("Invalid/Zone" : String).length)
    ∧ (jsToUpper "Invalid/Zone" ≠ "UTC")
    ∧ ("Invalid/Zone" ∉ tzEnvExample.supportedZones)
    ∧ (1 ≤ ("America/New_York" : String).length)
    ∧ (jsToUpper "America/New_York" ≠ "UTC")
    ∧ ("America/New_York" ∈ tzEnvExample.supportedZones)
    ∧ (tzEnvExample.formatZoned "America/New_York" 0 = none)
    ∧ (utcToLocal tzEnvExample false (.num 0) "Invalid/Zone"
        = (.error (JSError.invalidParameter "timeZone" "unknown" "Invalid IANA time zone"), [])
      ∧ (utcToLocal tzEnvExample true (.num 0) "America/New_York").1
        = (utcToLocal tzEnvExample true (.num 0) "UTC").1
      ∧ (utcToLocal tzEnvExample true (.num 0) "America/New_York").1
        = .ok (tzEnvExample.isoFormat 0 ++ " UTC")
      ∧ (utcToLocal tzEnvExample true (.num 0) "America/New_York").2
        = ["Failed to format time zone " ++ "America/New_York" ++ ". Falling back to UTC."]) :=
  ⟨by decide, by decide, by decide, by decide, by decide, by decide, rfl,
    utcToLocal_validation_and_fallback tzEnvExample false 0 "Invalid/Zone" "America/New_York"
      (by decide) (by decide) (by decide) (by decide) (by decide) (by decide) rfl⟩

/-- Helper: numeric parameter characters are path-safe. -/
theorem numCharOk_pathCharOk (c : Char) (h : numCharOk c = true) : pathCharOk c = true := by
  simp only [numCharOk, Bool.or_eq_true] at h
  rcases h with (h | h) | h <;> simp [pathCharOk, Char.isAlphanum, h]

/-- Helper: the cache key of a query-free plain endpoint is its
pathname. -/
theorem getCacheKeyList_path (path : List Char) (h : ∀ c ∈ path, pathCharOk c = true) :
    Cache.getCacheKeyList path = pathnameOf path := by
  have hmain := getCacheKeyList_renderEndpoint path [] h (by simp)
  simpa [renderSearch] using hmain

/-- C3: for plain endpoints (characters the WHATWG parser neither
escapes nor normalizes), `Cache.getCacheKey` (1) excludes the `apiKey`
credential query parameter, (2) yields the same key for any insertion
order of the remaining, distinctly-named query parameters, and (3) is
idempotent — so two logically identical requests always map to the
same key. -/
theorem cacheKey_normalization (path : String) (ps qs : List (String × String))
    (hpath : pathOk path.data) (hps : ∀ p ∈ ps, paramOk p)
    (hperm : ps.Perm qs)
    (hnd : (ps.filter (fun p => p.1 != "apiKey")).Pairwise (fun a b => a.1 ≠ b.1)) :
    Cache.getCacheKey (renderEndpoint path ps)
      = Cache.getCacheKey (renderEndpoint path (ps.filter (fun p => p.1 != "apiKey")))
    ∧ Cache.getCacheKey (renderEndpoint path ps) = Cache.getCacheKey (renderEndpoint path qs)
    ∧ Cache.getCacheKey (Cache.getCacheKey (renderEndpoint path ps))
      = Cache.getCacheKey (renderEndpoint path ps) := by
  have hchar := hpath.1
  have hfps : ∀ p ∈ ps.filter (fun p => p.1 != "apiKey"), paramOk p :=
    fun p hp => hps p (List.mem_filter.mp hp).1
  have hqs : ∀ p ∈ qs, paramOk p := fun p hp => hps p (hperm.mem_iff.mpr hp)
  have h₁ := getCacheKeyList_renderEndpoint path.data ps hchar hps
  have h₂ := getCacheKeyList_renderEndpoint path.data
    (ps.filter (fun p => p.1 != "apiKey")) hchar hfps
  have h₃ := getCacheKeyList_renderEndpoint path.data qs hchar hqs
  have hfilter : (ps.filter (fun p => p.1 != "apiKey")).filter (fun p => p.1 != "apiKey")
      = ps.filter (fun p => p.1 != "apiKey") :=
    List.filter_eq_self.mpr (fun p hp => (List.mem_filter.mp hp).2)
  have hre : ∀ rs : List (String × String),
      (renderEndpoint path rs).data = path.data ++ renderSearch rs := fun _ => rfl
  refine ⟨?_, ?_, ?_⟩
  · exact congrArg String.mk (by rw [hre, hre, h₁, h₂, hfilter])
  · have hsort := insertionSort_perm_eq _ _ (hperm.filter (fun p => p.1 != "apiKey")) hnd
    exact congrArg String.mk (by rw [hre, hre, h₁, h₃, hsort])
  · -- idempotence: reapply the normal form to the normalized key
    have hps' : ∀ p ∈ List.insertionSort nameLe (ps.filter (fun p => p.1 != "apiKey")),
        paramOk p := by
      intro p hp
      exact hfps p ((List.mem_insertionSort nameLe).mp hp)
    have hsorted : (List.insertionSort nameLe
        (ps.filter (fun p => p.1 != "apiKey"))).Sorted nameLe :=
      List.sorted_insertionSort nameLe _
    have hfil2 : (List.insertionSort nameLe (ps.filter (fun p => p.1 != "apiKey"))).filter
        (fun p => p.1 != "apiKey")
        = List.insertionSort nameLe (ps.filter (fun p => p.1 != "apiKey")) := by
      refine List.filter_eq_self.mpr ?_
      intro p hp
      exact (List.mem_filter.mp ((List.mem_insertionSort nameLe).mp hp)).2
    have hrekey := getCacheKeyList_renderEndpoint (pathnameOf path.data)
      (List.insertionSort nameLe (ps.filter (fun p => p.1 != "apiKey")))
      (pathnameOf_chars _ hchar) hps'
    refine congrArg String.mk ?_
    show Cache.getCacheKeyList (Cache.getCacheKeyList (path.data ++ renderSearch ps))
        = Cache.getCacheKeyList (path.data ++ renderSearch ps)
    rw [h₁, hrekey, hfil2, hsorted.insertionSort_eq]
    obtain ⟨t, ht⟩ := pathnameOf_shape path.data
    rw [ht, pathnameOf_slash]

/-- Witness for `cacheKey_normalization` at a concrete positions
endpoint with out-of-order parameters and an `apiKey` credential. -/
theorem cacheKey_normalization_witness :
    (pathOk ("positions/25544/41.702/-76.014/0/2/" : String).data)
    ∧ (∀ p ∈ [(("b" : String), ("2" : String)), ("a", "1"), ("apiKey", "SECRET")], paramOk p)
    ∧ (List.Perm [(("b" : String), ("2" : String)), ("a", "1"), ("apiKey", "SECRET")]
        [("apiKey", "SECRET"), ("a", "1"), ("b", "2")])
    ∧ (([(("b" : String), ("2" : String)), ("a", "1"), ("apiKey", "SECRET")].filter
          (fun p => p.1 != "apiKey")).Pairwise (fun a b => a.1 ≠ b.1))
    ∧ (Cache.getCacheKey (renderEndpoint "positions/25544/41.702/-76.014/0/2/"
          [("b", "2"), ("a", "1"), ("apiKey", "SECRET")])
        = Cache.getCacheKey (renderEndpoint "positions/25544/41.702/-76.014/0/2/"
            ([(("b" : String), ("2" : String)), ("a", "1"), ("apiKey", "SECRET")].filter
              (fun p => p.1 != "apiKey")))
      ∧ Cache.getCacheKey (renderEndpoint "positions/25544/41.702/-76.014/0/2/"
          [("b", "2"), ("a", "1"), ("apiKey", "SECRET")])
        = Cache.getCacheKey (renderEndpoint "positions/25544/41.702/-76.014/0/2/"
            [("apiKey", "SECRET"), ("a", "1"), ("b", "2")])
      ∧ Cache.getCacheKey (Cache.getCacheKey (renderEndpoint "positions/25544/41.702/-76.014/0/2/"
          [("b", "2"), ("a", "1"), ("apiKey", "SECRET")]))
        = Cache.getCacheKey (renderEndpoint "positions/25544/41.702/-76.014/0/2/"
            [("b", "2"), ("a", "1"), ("apiKey", "SECRET")])) :=
  ⟨by decide, by decide, by decide, by decide,
    cacheKey_normalization "positions/25544/41.702/-76.014/0/2/"
      [("b", "2"), ("a", "1"), ("apiKey", "SECRET")]
      [("apiKey", "SECRET"), ("a", "1"), ("b", "2")]
      (by decide) (by decide) (by decide) (by decide)⟩

/-- Helper: the pathname of a slash-free segment followed by a slash
drops the segment (it is absorbed into the host). -/
theorem pathnameOf_seg_slash (seg X : List Char) (hseg : ∀ c ∈ seg, (c != '/') = true) :
    pathnameOf (seg ++ '/' :: X) = '/' :: X := by
  unfold pathnameOf
  rw [dropWhile_append_all _ _ _ hseg]
  simp [List.dropWhile_cons]

/-- Helper: the cache key of a plain endpoint `seg/X` is `/X`: the
first segment is absorbed into the dummy host and dropped. -/
theorem getCacheKey_first_segment_dropped (seg : String) (X : List Char)
    (hseg : ∀ c ∈ seg.data, (c != '/') = true)
    (hchars : ∀ c ∈ seg.data ++ '/' :: X, pathCharOk c = true) :
    Cache.getCacheKey ⟨seg.data ++ '/' :: X⟩ = ⟨'/' :: X⟩ := by
  show (⟨Cache.getCacheKeyList (seg.data ++ '/' :: X)⟩ : String) = _
  rw [getCacheKeyList_path _ hchars, pathnameOf_seg_slash _ _ hseg]

/-- C9: `Cache.getCacheKey` parses a scheme-less endpoint against the
dummy base `http://dummy.base` with no separating slash, so the
endpoint's first path segment is absorbed into the host name and
dropped from the key; hence visual-pass and radio-pass requests with
identical id, latitude, longitude, altitude, days and threshold values
derive equal cache keys, and a response cached for one operation is
served for the other. -/
theorem visual_radio_cacheKey_collision (id lat lng alt days threshold : String)
    (hid : numParamOk id) (hlat : numParamOk lat) (hlng : numParamOk lng)
    (halt : numParamOk alt) (hdays : numParamOk days) (hthr : numParamOk threshold) :
    Cache.getCacheKey (visualPassesEndpoint id lat lng alt days threshold)
      = Cache.getCacheKey (radioPassesEndpoint id lat lng alt days threshold)
    ∧ Cache.getCacheKey (visualPassesEndpoint id lat lng alt days threshold)
      = "/" ++ id ++ "/" ++ lat ++ "/" ++ lng ++ "/" ++ alt ++ "/" ++ days ++ "/" ++ threshold
    ∧ ∀ (α : Type) (cfg : CacheConfig) (data : α) (now : Int),
        cfg.enabled = true → 0 ≤ cfg.ttlMs →
        (Cache.get cfg
          (Cache.set cfg [] now
            (Cache.getCacheKey (visualPassesEndpoint id lat lng alt days threshold)) data none)
          now (Cache.getCacheKey (radioPassesEndpoint id lat lng alt days threshold))).1
          = some data := by
  have hXchars : ∀ c ∈ id.data ++ '/' :: (lat.data ++ '/' :: (lng.data ++ '/' ::
      (alt.data ++ '/' :: (days.data ++ '/' :: threshold.data)))), pathCharOk c = true := by
    intro c hc
    simp only [List.mem_append, List.mem_cons] at hc
    rcases hc with hc | rfl | hc | rfl | hc | rfl | hc | rfl | hc | rfl | hc
    · exact numCharOk_pathCharOk c (hid.1 c hc)
    · decide
    · exact numCharOk_pathCharOk c (hlat.1 c hc)
    · decide
    · exact numCharOk_pathCharOk c (hlng.1 c hc)
    · decide
    · exact numCharOk_pathCharOk c (halt.1 c hc)
    · decide
    · exact numCharOk_pathCharOk c (hdays.1 c hc)
    · decide
    · exact numCharOk_pathCharOk c (hthr.1 c hc)
  have hVdata : (visualPassesEndpoint id lat lng alt days threshold).data
      = "visualpasses".data ++ '/' :: (id.data ++ '/' :: (lat.data ++ '/' :: (lng.data ++ '/' ::
          (alt.data ++ '/' :: (days.data ++ '/' :: threshold.data))))) := by
    simp [visualPassesEndpoint, String.data_append, List.append_assoc,
      show ("visualpasses/" : String).data = "visualpasses".data ++ ['/'] from rfl,
      show ("/" : String).data = ['/'] from rfl]
  have hRdata : (radioPassesEndpoint id lat lng alt days threshold).data
      = "radiopasses".data ++ '/' :: (id.data ++ '/' :: (lat.data ++ '/' :: (lng.data ++ '/' ::
          (alt.data ++ '/' :: (days.data ++ '/' :: threshold.data))))) := by
    simp [radioPassesEndpoint, String.data_append, List.append_assoc,
      show ("radiopasses/" : String).data = "radiopasses".data ++ ['/'] from rfl,
      show ("/" : String).data = ['/'] from rfl]
  have hVeq : visualPassesEndpoint id lat lng alt days threshold
      = (⟨"visualpasses".data ++ '/' :: (id.data ++ '/' :: (lat.data ++ '/' :: (lng.data ++ '/' ::
          (alt.data ++ '/' :: (days.data ++ '/' :: threshold.data)))))⟩ : String) := by
    rw [← hVdata]
  have hReq : radioPassesEndpoint id lat lng alt days threshold
      = (⟨"radiopasses".data ++ '/' :: (id.data ++ '/' :: (lat.data ++ '/' :: (lng.data ++ '/' ::
          (alt.data ++ '/' :: (days.data ++ '/' :: threshold.data)))))⟩ : String) := by
    rw [← hRdata]
  have hkeyV : Cache.getCacheKey (visualPassesEndpoint id lat lng alt days threshold)
      = (⟨'/' :: (id.data ++ '/' :: (lat.data ++ '/' :: (lng.data ++ '/' ::
          (alt.data ++ '/' :: (days.data ++ '/' :: threshold.data)))))⟩ : String) := by
    rw [hVeq]
    refine getCacheKey_first_segment_dropped "visualpasses" _ (by decide) ?_
    intro c hc
    rcases List.mem_append.mp hc with hc | hc
    · exact (by decide : ∀ c ∈ "visualpasses".data, pathCharOk c = true) c hc
    · rcases List.mem_cons.mp hc with rfl | hc
      · decide
      · exact hXchars c hc
  have hkeyR : Cache.getCacheKey (radioPassesEndpoint id lat lng alt days threshold)
      = (⟨'/' :: (id.data ++ '/' :: (lat.data ++ '/' :: (lng.data ++ '/' ::
          (alt.data ++ '/' :: (days.data ++ '/' :: threshold.data)))))⟩ : String) := by
    rw [hReq]
    refine getCacheKey_first_segment_dropped "radiopasses" _ (by decide) ?_
    intro c hc
    rcases List.mem_append.mp hc with hc | hc
    · exact (by decide : ∀ c ∈ "radiopasses".data, pathCharOk c = true) c hc
    · rcases List.mem_cons.mp hc with rfl | hc
      · decide
      · exact hXchars c hc
  have hKdata : ("/" ++ id ++ "/" ++ lat ++ "/" ++ lng ++ "/" ++ alt ++ "/" ++ days
        ++ "/" ++ threshold).data
      = '/' :: (id.data ++ '/' :: (lat.data ++ '/' :: (lng.data ++ '/' ::
          (alt.data ++ '/' :: (days.data ++ '/' :: threshold.data))))) := by
    simp [String.data_append, List.append_assoc, show ("/" : String).data = ['/'] from rfl]
  have hKeq : ("/" ++ id ++ "/" ++ lat ++ "/" ++ lng ++ "/" ++ alt ++ "/" ++ days
        ++ "/" ++ threshold : String)
      = (⟨'/' :: (id.data ++ '/' :: (lat.data ++ '/' :: (lng.data ++ '/' ::
          (alt.data ++ '/' :: (days.data ++ '/' :: threshold.data)))))⟩ : String) := by
    rw [← hKdata]
  refine ⟨hkeyV.trans hkeyR.symm, hkeyV.trans hKeq.symm, ?_⟩
  intro α cfg data now hen httl
  rw [hkeyV, hkeyR]
  have hng : ¬cfg.ttlMs < 0 := not_lt.mpr httl
  simp [Cache.set, Cache.get, hen, Cache.evictEntries, mapSet, mapGet, hng]

/-- Witness for `visual_radio_cacheKey_collision` at the concrete
parameters 25544, 41.702, −76.014, 0, 2, 40. -/
theorem visual_radio_cacheKey_collision_witness :
    (numParamOk "25544") ∧ (numParamOk "41.702") ∧ (numParamOk "-76.014")
    ∧ (numParamOk "0") ∧ (numParamOk "2") ∧ (numParamOk "40")
    ∧ (Cache.getCacheKey (visualPassesEndpoint "25544" "41.702" "-76.014" "0" "2" "40")
        = Cache.getCacheKey (radioPassesEndpoint "25544" "41.702" "-76.014" "0" "2" "40")
      ∧ Cache.getCacheKey (visualPassesEndpoint "25544" "41.702" "-76.014" "0" "2" "40")
        = "/" ++ "25544" ++ "/" ++ "41.702" ++ "/" ++ "-76.014" ++ "/" ++ "0" ++ "/" ++ "2"
          ++ "/" ++ "40"
      ∧ ∀ (α : Type) (cfg : CacheConfig) (data : α) (now : Int),
          cfg.enabled = true → 0 ≤ cfg.ttlMs →
          (Cache.get cfg
            (Cache.set cfg [] now
              (Cache.getCacheKey (visualPassesEndpoint "25544" "41.702" "-76.014" "0" "2" "40"))
              data none)
            now (Cache.getCacheKey (radioPassesEndpoint "25544" "41.702" "-76.014" "0" "2" "40"))).1
            = some data) :=
  ⟨by decide, by decide, by decide, by decide, by decide, by decide,
    visual_radio_cacheKey_collision "25544" "41.702" "-76.014" "0" "2" "40"
      (by decide) (by decide) (by decide) (by decide) (by decide) (by decide)⟩

end N2YO
